import Mathlib

/-!
# food-api: the food/taste repository and its handlers

A shallow embedding of `internal/data/foods.go` and of the handlers of
`cmd/api/handlers.go`, followed by the properties proved about them.

The relational store is a record of tables, each table a list of rows in
storage order.  A statement of the program (`db.QueryContext`,
`db.QueryRowContext`, `db.ExecContext`) reads or rewrites those lists the way
its SQL text says.  Go's `int` is `Int`; a point in time is a `Nat`.
-/

set_option linter.dupNamespace false

namespace FoodApi

/-! ## Errors -/

/-- The Go `error` values that occur in the data package. -/
inductive Error where
  /-- The sentinel `sql.ErrNoRows`, returned by `Row.Scan` on an empty result. -/
  | ErrNoRows
  /-- The error of `Row.Scan` / `Rows.Scan` when a NULL column is scanned into a Go `int`. -/
  | scanNull
  /-- An error reported by the database driver for one statement (timeout,
  lost connection, rejected statement), with its message. -/
  | driver (msg : String)
  /-- An error built by `fmt.Errorf` or `errors.New`, with its message. -/
  | errorf (msg : String)
deriving DecidableEq

deriving instance DecidableEq for Except

/-- The method `err.Error()`: the message of an error. -/
def Error.Error : Error → String
  | .ErrNoRows => "sql: no rows in result set"
  | .scanNull => "sql: Scan error on column index 8, name \x22id\x22: converting NULL to int is unsupported"
  | .driver m => m
  | .errorf m => m

/-! ## Data model -/

/-- A point in time (`time.Time`). -/
abbrev Time := Nat

/-- Country is the definition of a single country; also a row of table `countries`. -/
structure Country where
  ID : Int
  CountryName : String
  CreatedAt : Time
  UpdatedAt : Time
deriving DecidableEq

/-- Taste is the definition of a single taste type; also a row of table `tastes`. -/
structure Taste where
  ID : Int
  Taste : String
  CreatedAt : Time
  UpdatedAt : Time
deriving DecidableEq

/-- Food is the definition of a single food (the Go struct). -/
structure Food where
  ID : Int
  KnownAs : String
  CountryID : Int
  MakeYear : Int
  Slug : String
  Country : Country
  Description : String
  Tastes : List Taste
  CreatedAt : Time
  UpdatedAt : Time
  TasteIDs : List Int
deriving DecidableEq

/-- A row of table `foods`, with the columns in the order of the schema. -/
structure FoodRow where
  id : Int
  known_as : String
  country_id : Int
  make_year : Int
  created_at : Time
  updated_at : Time
  slug : String
  description : String
deriving DecidableEq

/-- A row of the join table `foods_tastes`. -/
structure FoodsTastesRow where
  id : Int
  food_id : Int
  taste_id : Int
  created_at : Time
  updated_at : Time
deriving DecidableEq

/-- The relational store: the four tables the food repository touches and the
next values of the two identity sequences it draws from. -/
structure Store where
  countries : List Country
  foods : List FoodRow
  foods_tastes : List FoodsTastesRow
  tastes : List Taste
  foods_id_seq : Int
  foods_tastes_id_seq : Int
deriving DecidableEq

/-- What the program takes from outside the repository: the slug function of
`github.com/mozillazg/go-slugify` and the collation the database uses for
`order by` on text columns. -/
structure Env where
  Slugify : String → String
  collate : String → String → Bool

/-- The outcomes of the successive database calls of one operation, in call
order: `some msg` makes that call fail with the driver error `msg` and leaves
the store as it was, `none` lets it run.  Calls beyond the end of the list run. -/
abbrev Faults := List (Option String)

/-- The outcome of the next database call. -/
def nextFault : Faults → Option String
  | [] => none
  | x :: _ => x

/-- No call faults. -/
def noFaults : Faults := []

/-! ## The SQL statements -/

/-- The clause `order by key` under the collation of the environment: a stable sort. -/
def orderBy {α : Type} (env : Env) (key : α → String) (rows : List α) : List α :=
  rows.insertionSort (fun a b => env.collate (key a) (key b) = true)

/-- The rows one foods row contributes to `foods f left join countries c on
(f.country_id = c.id)`: one per matching country, and one with NULL country
columns when no country matches. -/
def joinCountry (s : Store) (f : FoodRow) : List (FoodRow × Option Country) :=
  match s.countries.filter (fun c => f.country_id = c.ID) with
  | [] => [(f, none)]
  | c :: cs => (c :: cs).map (fun c => (f, some c))

/-- The join `from foods f left join countries c on (f.country_id = c.id)`. -/
def leftJoinCountries (s : Store) : List (FoodRow × Option Country) :=
  s.foods.flatMap (joinCountry s)

/-- The twelve-column `Scan` of the food queries into a fresh `Food`: the NULL
country id of an unmatched left join cannot be stored in `food.Country.ID`. -/
def scanFood : FoodRow × Option Country → Except Error Food
  | (f, some c) => .ok
      { ID := f.id, KnownAs := f.known_as, CountryID := f.country_id, MakeYear := f.make_year,
        Slug := f.slug, Country := c, Description := f.description, Tastes := [],
        CreatedAt := f.created_at, UpdatedAt := f.updated_at, TasteIDs := [] }
  | (_, none) => .error .scanNull

/-- The query of `tastesForFood`: `select ... from tastes where id in (select taste_id
from foods_tastes where food_id = $1) order by taste`. -/
def tasteQuery (env : Env) (s : Store) (foodID : Int) : List Taste :=
  orderBy env (fun t => t.Taste)
    (s.tastes.filter (fun t =>
      t.ID ∈ (s.foods_tastes.filter (fun r => r.food_id = foodID)).map (fun r => r.taste_id)))

/-- The statement `insert into foods_tastes (food_id, taste_id, created_at, updated_at)
values ($1, $2, $3, $4)`; the id comes from the identity sequence. -/
def insertFoodsTastes (s : Store) (foodID tasteID : Int) (created updated : Time) : Store :=
  { s with
    foods_tastes := s.foods_tastes ++ [⟨s.foods_tastes_id_seq, foodID, tasteID, created, updated⟩]
    foods_tastes_id_seq := s.foods_tastes_id_seq + 1 }

/-- The statement `delete from foods_tastes where food_id = $1`. -/
def deleteFoodsTastes (s : Store) (foodID : Int) : Store :=
  { s with foods_tastes := s.foods_tastes.filter (fun r => r.food_id ≠ foodID) }

/-! ## internal/data/foods.go -/

namespace Data

/-- Returns all tastes for a given food id, and their ids. -/
def tastesForFood (env : Env) (fs : Faults) (s : Store) (foodID : Int) :
    Except Error (List Taste × List Int) :=
  match nextFault fs with
  | some m => .error (.driver m)
  | none =>
    let tastes := tasteQuery env s foodID
    .ok (tastes, tastes.map (fun t => t.ID))

/-- The body of the `rows.Next()` loop of `GetAll`: scan the row, fetch its
tastes, append the food. -/
def scanAll (env : Env) (s : Store) : Faults → List (FoodRow × Option Country) →
    Except Error (List Food)
  | _, [] => .ok []
  | fs, r :: rs =>
    match scanFood r with
    | .error e => .error e
    | .ok food =>
      match tastesForFood env fs s food.ID with
      | .error e => .error e
      | .ok (tastes, ids) =>
        match scanAll env s fs.tail rs with
        | .error e => .error e
        | .ok foods => .ok ({ food with Tastes := tastes, TasteIDs := ids } :: foods)

/-- Returns a slice of all foods. -/
def GetAll (env : Env) (fs : Faults) (s : Store) : Except Error (List Food) :=
  match nextFault fs with
  | some m => .error (.driver m)
  | none => scanAll env s fs.tail (orderBy env (fun r => r.1.known_as) (leftJoinCountries s))

/-- The common tail of `GetOneById` and `GetOneBySlug`: `QueryRowContext` keeps the
first row of the result, `Scan` reports an empty result as `sql.ErrNoRows`. -/
def scanOne (env : Env) (fs : Faults) (s : Store) (rows : List (FoodRow × Option Country)) :
    Except Error Food :=
  match nextFault fs with
  | some m => .error (.driver m)
  | none =>
    match rows.head? with
    | none => .error .ErrNoRows
    | some r =>
      match scanFood r with
      | .error e => .error e
      | .ok food =>
        match tastesForFood env fs.tail s food.ID with
        | .error e => .error e
        | .ok (tastes, ids) => .ok { food with Tastes := tastes, TasteIDs := ids }

/-- Returns one food by its id. -/
def GetOneById (env : Env) (fs : Faults) (s : Store) (foodID : Int) : Except Error Food :=
  scanOne env fs s ((leftJoinCountries s).filter (fun r => r.1.id = foodID))

/-- Returns one food by slug. -/
def GetOneBySlug (env : Env) (fs : Faults) (s : Store) (slug : String) : Except Error Food :=
  scanOne env fs s ((leftJoinCountries s).filter (fun r => r.1.slug = slug))

/-- The message put in front of a failed association write. -/
def tastesNotSaved : String := "food updated, but tastes not: "

/-- The loop `for _, x := range TasteIDs` of `Insert` and `Update`: one insert
into `foods_tastes` per taste id; `k` counts the calls of `time.Now()` made so far. -/
def addTastes (now : Nat → Time) (foodID : Int) :
    Faults → Nat → List Int → Store → Store × Option Error
  | _, _, [], s => (s, none)
  | fs, k, x :: xs, s =>
    match nextFault fs with
    | some m => (s, some (.errorf (tastesNotSaved ++ (Error.driver m).Error)))
    | none => addTastes now foodID fs.tail (k + 2) xs (insertFoodsTastes s foodID x (now k) (now (k + 1)))

/-- The result of `Insert`: the store it leaves, and the Go results `(int, error)`. -/
structure InsertResult where
  store : Store
  id : Int
  err : Option Error
deriving DecidableEq

/-- Saves one food to the database. -/
def Insert (env : Env) (fs : Faults) (now : Nat → Time) (s : Store) (food : Food) : InsertResult :=
  match nextFault fs with
  | some m => ⟨s, 0, some (.driver m)⟩
  | none =>
    let newID := s.foods_id_seq
    let s1 : Store :=
      { s with
        foods := s.foods ++ [⟨newID, food.KnownAs, food.CountryID, food.MakeYear, now 0, now 1,
          env.Slugify food.KnownAs, food.Description⟩]
        foods_id_seq := newID + 1 }
    if food.TasteIDs.length > 0 then
      match nextFault fs.tail with
      | some m => ⟨s1, newID, some (.errorf (tastesNotSaved ++ (Error.driver m).Error))⟩
      | none =>
        let r := addTastes now newID fs.tail.tail 2 food.TasteIDs (deleteFoodsTastes s1 food.ID)
        ⟨r.1, newID, r.2⟩
    else ⟨s1, newID, none⟩

/-- The statement `update foods set known_as = $1, country_id = $2, make_year = $3,
slug = $4, description = $5, updated_at = $6 where id = $7`. -/
def updateFoods (s : Store) (knownAs : String) (countryID makeYear : Int) (slug description : String)
    (updated : Time) (id : Int) : Store :=
  { s with
    foods := s.foods.map (fun r =>
      if r.id = id then
        { r with known_as := knownAs, country_id := countryID, make_year := makeYear,
                 slug := slug, description := description, updated_at := updated }
      else r) }

/-- Updates one food in the database; the receiver is `f`. -/
def Update (env : Env) (fs : Faults) (now : Nat → Time) (s : Store) (f : Food) :
    Store × Option Error :=
  match nextFault fs with
  | some m => (s, some (.driver m))
  | none =>
    let s1 := updateFoods s f.KnownAs f.CountryID f.MakeYear (env.Slugify f.KnownAs) f.Description
      (now 0) f.ID
    if f.TasteIDs.length > 0 then
      match nextFault fs.tail with
      | some m => (s1, some (.errorf (tastesNotSaved ++ (Error.driver m).Error)))
      | none => addTastes now f.ID fs.tail.tail 1 f.TasteIDs (deleteFoodsTastes s1 f.ID)
    else (s1, none)

/-- Deletes a food by id. -/
def DeleteByID (fs : Faults) (s : Store) (foodID : Int) : Store × Option Error :=
  match nextFault fs with
  | some m => (s, some (.driver m))
  | none => ({ s with foods := s.foods.filter (fun r => r.id ≠ foodID) }, none)

end Data

/-! ## A concrete environment and the seeded store of the tests -/

/-- Code point order on texts, the order of the `C` collation. -/
def codepointLe : List Char → List Char → Bool
  | [], _ => true
  | _ :: _, [] => false
  | a :: as, b :: bs => decide (a.toNat < b.toNat) || (decide (a.toNat = b.toNat) && codepointLe as bs)

/-- A slug function for the examples: lower case, blanks become hyphens. -/
def demoSlugify (t : String) : String :=
  ⟨t.data.map (fun c => if c = ' ' then '-' else c.toLower)⟩

/-- The environment of the examples. -/
def demoEnv : Env :=
  { Slugify := demoSlugify, collate := fun a b => codepointLe a.data b.data }

/-- The store after `createTables` and `insertData` of `setup_test.go`: one
country, the seven tastes, the food Hamburger and its one taste. -/
def seedStore : Store :=
  { countries := [⟨1, "John Smith", 20220305, 20220305⟩]
    tastes := [⟨1, "umami", 20220101, 20220101⟩, ⟨2, "sweet", 20220101, 20220101⟩,
      ⟨3, "sour", 20220101, 20220101⟩, ⟨4, "salty", 20220101, 20220101⟩,
      ⟨5, "bitter", 20220101, 20220101⟩, ⟨6, "spicy", 20220101, 20220101⟩,
      ⟨7, "oily", 20220101, 20220101⟩]
    foods := [⟨1, "Hamburger", 1, 2022, 20220101, 20220101, "hamburger", "Hamburger description"⟩]
    foods_tastes := [⟨1, 1, 3, 20220101, 20220101⟩]
    foods_id_seq := 2
    foods_tastes_id_seq := 2 }

/-- The store of the tests before the food is inserted: the country and the tastes only. -/
def baseStore : Store :=
  { seedStore with foods := [], foods_tastes := [], foods_id_seq := 1, foods_tastes_id_seq := 1 }

/-- A food value as a caller builds it: `KnownAs`, `CountryID`, `MakeYear`,
`Description`, `Slug` and `TasteIDs` are set, the fields the store fills are zero. -/
def sampleFood (id : Int) (knownAs : String) (countryID : Int) (slug : String)
    (tasteIDs : List Int) : Food :=
  { ID := id, KnownAs := knownAs, CountryID := countryID, MakeYear := 2022, Slug := slug,
    Country := ⟨0, "", 0, 0⟩, Description := "", Tastes := [], CreatedAt := 0, UpdatedAt := 0,
    TasteIDs := tasteIDs }

/-- A clock for the examples: the readings of `time.Now()` increase by one per call. -/
def sampleClock (k : Nat) : Time := 20221104 + k

/-! ## cmd/api/handlers.go -/

namespace Api

/-- Modelled from the spec: the `User` of `internal/data/users.go`, a file that is
not among the sources; the fields are those the spec lists and the handlers read. -/
structure User where
  ID : Int
  Email : String
  FirstName : String
  LastName : String
  Password : String
  Active : Int
deriving DecidableEq

/-- Modelled from the spec: the `Token` of `internal/data/tokens.go`, a file that is
not among the sources; the fields are those the spec lists. -/
structure Token where
  UserID : Int
  Email : String
  Token : String
  TokenHash : String
  Expiry : Nat
deriving DecidableEq

/-- The `Data` of a response: absent, the envelope with the token and the user,
or a boolean. -/
inductive Payload where
  | absent
  | tokenUser (token : Token) (user : User)
  | bool (b : Bool)
deriving DecidableEq

/-- Is the type used for generic JSON responses. -/
structure jsonResponse where
  Error : Bool
  Message : String
  Data : Payload
deriving DecidableEq

/-- The request body of `Login`. -/
structure credentials where
  UserName : String
  Password : String
deriving DecidableEq

/-- What a handler does, in order: the calls into the data layer and the
helpers that log or write the response. -/
inductive Effect where
  | errorLog (e : Error)
  | writeJSON (status : Nat) (payload : jsonResponse)
  | errorJSON (e : Error)
  | GetByEmail (email : String)
  | PasswordMatches (user : User) (plainText : String)
  | GenerateToken (userID : Int) (ttl : Nat)
  | TokenInsert (token : Token) (user : User)
  | ValidToken (plainText : String)
  | DecodeString (s : String)
  | WriteFile (name : String) (data : List Nat)
  | FoodInsert (food : Food)
  | FoodUpdate (food : Food)
deriving DecidableEq

/-- The results of the calls `Login` makes into `internal/data/users.go` and
`internal/data/tokens.go`, which are not among the sources. -/
structure Models where
  GetByEmail : String → Except Error User
  PasswordMatches : User → String → Except Error Bool
  GenerateToken : Int → Nat → Except Error Token
  TokenInsert : Token → User → Option Error

/-- The duration `24*time.Hour`, in nanoseconds. -/
def tokenTTL : Nat := 24 * 3600000000000

/-- The part of `Login` after the request body is read: look up the user, check
the password and the active flag, issue and store the token. -/
def authenticate (m : Models) (creds : credentials) : List Effect :=
  .GetByEmail creds.UserName ::
    match m.GetByEmail creds.UserName with
    | .error _ => [.errorJSON (.errorf "invalid username/password")]
    | .ok user =>
      .PasswordMatches user creds.Password ::
        match m.PasswordMatches user creds.Password with
        | .error _ => [.errorJSON (.errorf "invalid username/password")]
        | .ok false => [.errorJSON (.errorf "invalid username/password")]
        | .ok true =>
          if user.Active = 0 then [.errorJSON (.errorf "user is not active")]
          else
            .GenerateToken user.ID tokenTTL ::
              match m.GenerateToken user.ID tokenTTL with
              | .error e => [.errorJSON e]
              | .ok token =>
                .TokenInsert token user ::
                  match m.TokenInsert token user with
                  | some e => [.errorJSON e]
                  | none => [.writeJSON 200 ⟨false, "logged in", .tokenUser token user⟩]

/-- Is the handler used to attempt to log a user into the api.  `readErr` is the
error of `readJSON`, if any, and `creds` the credentials as `readJSON` left them. -/
def Login (m : Models) (readErr : Option Error) (creds : credentials) : List Effect :=
  match readErr with
  | some err =>
    .errorLog err ::
      .writeJSON 400 ⟨true, "invalid json supplied, or json missing entirely", .absent⟩ ::
      authenticate m creds
  | none => authenticate m creds

/-- The responses among the effects of a handler: what it writes to the caller. -/
def responses (effects : List Effect) : List Effect :=
  effects.filter (fun e =>
    match e with
    | .writeJSON _ _ => true
    | .errorJSON _ => true
    | _ => false)

/-- Accepts a JSON payload with a plain text token, and returns true if that
token is valid, or false if it is not, as a JSON response.  `ValidToken` gives
the Go results `(bool, error)` of `Token.ValidToken`, which is not among the
sources; `readErr` is the error of `readJSON`, if any. -/
def ValidateToken (ValidToken : String → Bool × Option Error) (readErr : Option Error)
    (token : String) : List Effect :=
  match readErr with
  | some err => [.errorJSON err]
  | none => [.ValidToken token, .writeJSON 200 ⟨false, "", .bool (ValidToken token).1⟩]

/-- The request body of `EditFood`. -/
structure foodPayload where
  ID : Int
  KnownAs : String
  CountryID : Int
  MakeYear : Int
  Description : String
  SampleBase64 : String
  TasteIDs : List Int
deriving DecidableEq

/-- The results of the calls `EditFood` makes outside the program:
`base64.StdEncoding.DecodeString`, with bytes as numbers, and `os.WriteFile`. -/
structure Files where
  DecodeString : String → Except Error (List Nat)
  WriteFile : String → List Nat → Option Error

/-- The variable `staticPath`. -/
def staticPath : String := "./static/"

/-- The file name `fmt.Sprintf("%s/samples/%s.jpg", staticPath, slug)`. -/
def samplePath (slug : String) : String :=
  staticPath ++ "/samples/" ++ slug ++ ".jpg"

/-- The food value `EditFood` builds from the request body; the fields it does
not name are zero. -/
def foodOfPayload (env : Env) (p : foodPayload) : Food :=
  { ID := p.ID, KnownAs := p.KnownAs, CountryID := p.CountryID, MakeYear := p.MakeYear,
    Description := p.Description, Slug := env.Slugify p.KnownAs, TasteIDs := p.TasteIDs,
    Country := ⟨0, "", 0, 0⟩, Tastes := [], CreatedAt := 0, UpdatedAt := 0 }

/-- The end of `EditFood`: `Insert` for the id 0 and `Update` otherwise, then
the response.  The result is the effects and the store the data call leaves. -/
def saveFood (env : Env) (fs : Faults) (now : Nat → Time) (s : Store) (food : Food) :
    List Effect × Store :=
  if food.ID = 0 then
    match (Data.Insert env fs now s food).err with
    | some err => ([.FoodInsert food, .errorJSON err], (Data.Insert env fs now s food).store)
    | none =>
      ([.FoodInsert food, .writeJSON 202 ⟨false, "Changes saved", .absent⟩],
        (Data.Insert env fs now s food).store)
  else
    match (Data.Update env fs now s food).2 with
    | some err => ([.FoodUpdate food, .errorJSON err], (Data.Update env fs now s food).1)
    | none =>
      ([.FoodUpdate food, .writeJSON 202 ⟨false, "Changes saved", .absent⟩],
        (Data.Update env fs now s food).1)

/-- Accepts Food as JSON and makes DB calls to either insert or update Food.
`readErr` is the error of `readJSON`, if any, and `p` the request body. -/
def EditFood (env : Env) (os : Files) (fs : Faults) (now : Nat → Time) (s : Store)
    (readErr : Option Error) (p : foodPayload) : List Effect × Store :=
  match readErr with
  | some err => ([.errorJSON err], s)
  | none =>
    if p.SampleBase64.length > 0 then
      match os.DecodeString p.SampleBase64 with
      | .error err => ([.DecodeString p.SampleBase64, .errorJSON err], s)
      | .ok decoded =>
        match os.WriteFile (samplePath (foodOfPayload env p).Slug) decoded with
        | some err =>
          ([.DecodeString p.SampleBase64,
            .WriteFile (samplePath (foodOfPayload env p).Slug) decoded, .errorJSON err], s)
        | none =>
          (.DecodeString p.SampleBase64 ::
            .WriteFile (samplePath (foodOfPayload env p).Slug) decoded ::
            (saveFood env fs now s (foodOfPayload env p)).1,
           (saveFood env fs now s (foodOfPayload env p)).2)
    else saveFood env fs now s (foodOfPayload env p)

end Api

namespace Data

/-- Modelled from the spec: `Token.ValidToken` of `internal/data/tokens.go`, a file
that is not among the sources.  It hashes the plain text with the one-way
function, looks the token row up by that hash, and checks that the user of the
token is active and that the expiry is in the future: not found, expired and
user inactive are `false` without an error.  A fault of the persistence layer
is the only error, and since internal errors are treated as `false` the boolean
returned with it is `false`. -/
def ValidToken (hash : String → String) (tokens : List Api.Token) (users : List Api.User)
    (now : Time) (fs : Faults) (plainText : String) : Bool × Option Error :=
  match nextFault fs with
  | some m => (false, some (.driver m))
  | none =>
    match tokens.find? (fun t => t.TokenHash = hash plainText) with
    | none => (false, none)
    | some t =>
      match users.find? (fun u => u.ID = t.UserID) with
      | none => (false, none)
      | some u => (decide (u.Active ≠ 0 ∧ now < t.Expiry), none)

end Data

/-- A one-way function for the examples: the text reversed. -/
def sampleHash (t : String) : String := ⟨t.data.reverse⟩

/-- The token table of the examples: one token of user 1, with the plain text
`abc` and the expiry 100. -/
def sampleTokens : List Api.Token := [⟨1, "admin@example.com", "", "cba", 100⟩]

/-- A file system for the examples: the text `aGk=` decodes to two bytes, any
other text is not base64; files can be written when `writable` holds. -/
def sampleFiles (writable : Bool) : Api.Files :=
  { DecodeString := fun t =>
      if t = "aGk=" then .ok [104, 105] else .error (.errorf "illegal base64 data at input byte 0")
    WriteFile := fun _ _ =>
      if writable then none else some (.errorf "open: permission denied") }

/-- A request body of `EditFood` for the examples. -/
def samplePayload (id : Int) (knownAs : String) (sample : String) (tasteIDs : List Int) :
    Api.foodPayload :=
  ⟨id, knownAs, 1, 2022, "", sample, tasteIDs⟩

/-- A user of the examples: active, known by the email `admin@example.com`. -/
def sampleUser (active : Int) : Api.User :=
  ⟨1, "admin@example.com", "Admin", "User", "$2a$12$hash", active⟩

/-- A data layer for the examples: it knows the user `sampleUser active` under the
email `admin@example.com`, whose password is `secret`. -/
def sampleModels (active : Int) : Api.Models :=
  { GetByEmail := fun email =>
      if email = "admin@example.com" then .ok (sampleUser active) else .error .ErrNoRows
    PasswordMatches := fun _ plain => .ok (decide (plain = "secret"))
    GenerateToken := fun id ttl => .ok ⟨id, "", "plaintexttoken", "hash", ttl⟩
    TokenInsert := fun _ _ => none }

/-! ## Vocabulary of the properties -/

/-- The effects contain a call of `Food.Insert` or of `Food.Update`. -/
def callsFood (effects : List Api.Effect) : Bool :=
  effects.any (fun e =>
    match e with
    | .FoodInsert _ => true
    | .FoodUpdate _ => true
    | _ => false)

/-- The identity columns of `foods` and `foods_tastes` are `GENERATED ALWAYS AS
IDENTITY`: the identities in the tables lie below the next value of their
sequence, and those of `foods` are pairwise distinct. -/
def IdentityInv (s : Store) : Prop :=
  (∀ r ∈ s.foods, r.id < s.foods_id_seq) ∧
  (s.foods.map (fun r => r.id)).Nodup ∧
  (∀ r ∈ s.foods_tastes, r.id < s.foods_tastes_id_seq)

/-- The login fails on the credentials: the email is unknown to `GetByEmail`, or
`PasswordMatches` does not confirm the password. -/
def badCredentials (m : Api.Models) (creds : Api.credentials) : Bool :=
  match m.GetByEmail creds.UserName with
  | .error _ => true
  | .ok user =>
    match m.PasswordMatches user creds.Password with
    | .ok true => false
    | _ => true

/-- The login fails on the active flag: the user is found, the password matches
and `Active` is 0. -/
def inactiveUser (m : Api.Models) (creds : Api.credentials) : Bool :=
  match m.GetByEmail creds.UserName with
  | .error _ => false
  | .ok user =>
    match m.PasswordMatches user creds.Password with
    | .ok true => decide (user.Active = 0)
    | _ => false

/-- The foods row `Insert` writes for a food value, with identity `id`. -/
def insertedRow (env : Env) (now : Nat → Time) (id : Int) (food : Food) : FoodRow :=
  ⟨id, food.KnownAs, food.CountryID, food.MakeYear, now 0, now 1, env.Slugify food.KnownAs,
    food.Description⟩

/-- The collation is a total preorder on texts. -/
def Env.Collation (env : Env) : Prop :=
  (∀ a b, env.collate a b = true ∨ env.collate b a = true) ∧
  (∀ a b c, env.collate a b = true → env.collate b c = true → env.collate a c = true)

/-- The food the queries build from a foods row, the country joined to it and
the result of `tastesForFood` for its id. -/
def foodOf (env : Env) (s : Store) (f : FoodRow) (c : Country) : Food :=
  { ID := f.id, KnownAs := f.known_as, CountryID := f.country_id, MakeYear := f.make_year,
    Slug := f.slug, Country := c, Description := f.description,
    Tastes := tasteQuery env s f.id, CreatedAt := f.created_at, UpdatedAt := f.updated_at,
    TasteIDs := (tasteQuery env s f.id).map (fun t => t.ID) }

/-- The result of a single-row lookup whose first selected foods row is `row`:
no row is `sql.ErrNoRows`, a row without a country fails in `Scan`. -/
def lookupResult (env : Env) (s : Store) : Option FoodRow → Except Error Food
  | none => .error .ErrNoRows
  | some f =>
    match s.countries.find? (fun c => f.country_id = c.ID) with
    | none => .error .scanNull
    | some c => .ok (foodOf env s f c)

/-- The join rows the loop of `Insert` and `Update` writes for the taste ids
`xs`, the first with identity `seq` and the clock readings `k`, `k + 1`. -/
def tasteRows (now : Nat → Time) (foodID : Int) : Nat → Int → List Int → List FoodsTastesRow
  | _, _, [] => []
  | k, seq, x :: xs => ⟨seq, foodID, x, now k, now (k + 1)⟩ :: tasteRows now foodID (k + 2) (seq + 1) xs

/-- The message of the first fault among the next `n` database calls, if any. -/
def firstFault : Nat → Faults → Option String
  | 0, _ => none
  | n + 1, fs =>
    match nextFault fs with
    | some m => some m
    | none => firstFault n fs.tail

/-! ## Lemmas on the SQL statements -/

theorem orderBy_perm {α : Type} (env : Env) (key : α → String) (rows : List α) :
    (orderBy env key rows).Perm rows :=
  List.perm_insertionSort _ rows

theorem mem_orderBy {α : Type} (env : Env) (key : α → String) (rows : List α) (a : α) :
    a ∈ orderBy env key rows ↔ a ∈ rows :=
  (orderBy_perm env key rows).mem_iff

theorem orderBy_length {α : Type} (env : Env) (key : α → String) (rows : List α) :
    (orderBy env key rows).length = rows.length :=
  (orderBy_perm env key rows).length_eq

theorem orderBy_sorted {α : Type} (env : Env) (h : env.Collation) (key : α → String)
    (rows : List α) :
    (orderBy env key rows).Sorted (fun a b => env.collate (key a) (key b) = true) := by
  have : IsTotal α (fun a b => env.collate (key a) (key b) = true) := ⟨fun a b => h.1 _ _⟩
  have : IsTrans α (fun a b => env.collate (key a) (key b) = true) :=
    ⟨fun a b c => h.2 _ _ _⟩
  exact List.sorted_insertionSort _ rows

theorem mem_tasteQuery (env : Env) (s : Store) (foodID : Int) (t : Taste) :
    t ∈ tasteQuery env s foodID ↔
      t ∈ s.tastes ∧ ∃ r ∈ s.foods_tastes, r.food_id = foodID ∧ r.taste_id = t.ID := by
  unfold tasteQuery
  rw [mem_orderBy]
  simp only [List.mem_filter, decide_eq_true_eq, List.mem_map]
  constructor
  · rintro ⟨ht, r, ⟨hr, hf⟩, hid⟩
    exact ⟨ht, r, hr, hf, hid⟩
  · rintro ⟨ht, r, hr, hf, hid⟩
    exact ⟨ht, r, ⟨hr, hf⟩, hid⟩

/-- The result of the taste query in terms of the tables: the rows of `tastes`
whose id is joined to the food in `foods_tastes`, each as often as it is stored,
in non-decreasing order of taste when the collation is a total preorder. -/
theorem tasteQuery_rows (env : Env) (s : Store) (foodID : Int) :
    (tasteQuery env s foodID).Perm (s.tastes.filter (fun t =>
        t.ID ∈ (s.foods_tastes.filter (fun j => j.food_id = foodID)).map
          (fun j => j.taste_id))) ∧
      (env.Collation →
        (tasteQuery env s foodID).Sorted (fun a b => env.collate a.Taste b.Taste = true)) :=
  ⟨orderBy_perm _ _ _, fun h => orderBy_sorted env h _ _⟩

/-- The first row of a food query that selects on columns of `foods` only: the
first selected foods row, with the first country that matches it. -/
theorem head?_filter_join (s : Store) (p : FoodRow → Bool) (fl : List FoodRow) :
    (((fl.flatMap (joinCountry s)).filter (fun r => p r.1)).head?) =
      (fl.find? p).map (fun f => (f, s.countries.find? (fun c => f.country_id = c.ID))) := by
  induction fl with
  | nil => rfl
  | cons f fl ih =>
    rw [List.flatMap_cons, List.filter_append, List.find?_cons]
    cases hp : p f with
    | false =>
      have hnil : (joinCountry s f).filter (fun r => p r.1) = [] := by
        rw [List.filter_eq_nil_iff]
        intro r hr
        unfold joinCountry at hr
        split at hr
        · simp only [List.mem_singleton] at hr
          subst hr
          simp [hp]
        · simp only [List.mem_map] at hr
          obtain ⟨c, _, rfl⟩ := hr
          simp [hp]
      rw [hnil, List.nil_append, ih]
    | true =>
      unfold joinCountry
      cases hc : s.countries.filter (fun c => f.country_id = c.ID) with
      | nil =>
        have hnone : s.countries.find? (fun c => decide (f.country_id = c.ID)) = none := by
          rw [← List.filter_head?, hc]; rfl
        simp [hp, hnone]
      | cons c cs =>
        have hsome : s.countries.find? (fun c => decide (f.country_id = c.ID)) = some c := by
          rw [← List.filter_head?, hc]; rfl
        simp [hp, hsome]

/-! ## Lemmas on the lookups -/

theorem scanOne_noFaults (env : Env) (s : Store) (rows : List (FoodRow × Option Country)) :
    Data.scanOne env noFaults s rows =
      match rows.head? with
      | none => .error .ErrNoRows
      | some (_, none) => .error .scanNull
      | some (f, some c) => .ok (foodOf env s f c) := by
  unfold Data.scanOne
  cases rows.head? with
  | none => rfl
  | some r =>
    obtain ⟨f, c⟩ := r
    cases c <;> rfl

theorem lookup_noFaults (env : Env) (s : Store) (p : FoodRow → Bool) :
    Data.scanOne env noFaults s ((leftJoinCountries s).filter (fun r => p r.1)) =
      lookupResult env s (s.foods.find? p) := by
  rw [scanOne_noFaults, leftJoinCountries, head?_filter_join]
  cases s.foods.find? p with
  | none => rfl
  | some f =>
    simp only [Option.map_some', lookupResult]
    cases s.countries.find? (fun c => decide (f.country_id = c.ID)) <;> rfl

theorem GetOneById_noFaults (env : Env) (s : Store) (foodID : Int) :
    Data.GetOneById env noFaults s foodID =
      lookupResult env s (s.foods.find? (fun f => f.id = foodID)) :=
  lookup_noFaults env s (fun f => f.id = foodID)

theorem GetOneBySlug_noFaults (env : Env) (s : Store) (slug : String) :
    Data.GetOneBySlug env noFaults s slug =
      lookupResult env s (s.foods.find? (fun f => f.slug = slug)) :=
  lookup_noFaults env s (fun f => f.slug = slug)

/-! ## Lemmas on the association loop -/

theorem addTastes_err (now : Nat → Time) (foodID : Int) (fs : Faults) (k : Nat) (xs : List Int)
    (s : Store) :
    (Data.addTastes now foodID fs k xs s).2 =
      (firstFault xs.length fs).map (fun m => Error.errorf (Data.tastesNotSaved ++ m)) := by
  induction xs generalizing fs k s with
  | nil => rfl
  | cons x xs ih =>
    unfold Data.addTastes
    simp only [List.length_cons, firstFault]
    cases nextFault fs with
    | some m => rfl
    | none => exact ih _ _ _

theorem addTastes_frame (now : Nat → Time) (foodID : Int) (fs : Faults) (k : Nat) (xs : List Int)
    (s : Store) :
    (Data.addTastes now foodID fs k xs s).1.foods = s.foods ∧
    (Data.addTastes now foodID fs k xs s).1.countries = s.countries ∧
    (Data.addTastes now foodID fs k xs s).1.tastes = s.tastes ∧
    (Data.addTastes now foodID fs k xs s).1.foods_id_seq = s.foods_id_seq := by
  induction xs generalizing fs k s with
  | nil => exact ⟨rfl, rfl, rfl, rfl⟩
  | cons x xs ih =>
    unfold Data.addTastes
    cases nextFault fs with
    | some m => exact ⟨rfl, rfl, rfl, rfl⟩
    | none => exact ih _ _ _

theorem addTastes_ok (now : Nat → Time) (foodID : Int) (fs : Faults) (k : Nat) (xs : List Int)
    (s : Store) (h : firstFault xs.length fs = none) :
    (Data.addTastes now foodID fs k xs s).1.foods_tastes =
      s.foods_tastes ++ tasteRows now foodID k s.foods_tastes_id_seq xs := by
  induction xs generalizing fs k s with
  | nil => simp [Data.addTastes, tasteRows]
  | cons x xs ih =>
    unfold Data.addTastes
    simp only [List.length_cons, firstFault] at h
    cases hf : nextFault fs with
    | some m => simp [hf] at h
    | none =>
      simp only [hf] at h
      simp only []
      rw [ih _ _ _ h]
      simp [insertFoodsTastes, tasteRows]

theorem tasteRows_taste_id (now : Nat → Time) (foodID : Int) (k : Nat) (seq : Int)
    (xs : List Int) : (tasteRows now foodID k seq xs).map (fun r => r.taste_id) = xs := by
  induction xs generalizing k seq with
  | nil => rfl
  | cons x xs ih => simp [tasteRows, ih]

theorem tasteRows_food_id (now : Nat → Time) (foodID : Int) (k : Nat) (seq : Int)
    (xs : List Int) : ∀ r ∈ tasteRows now foodID k seq xs, r.food_id = foodID := by
  induction xs generalizing k seq with
  | nil => simp [tasteRows]
  | cons x xs ih =>
    intro r hr
    simp only [tasteRows, List.mem_cons] at hr
    rcases hr with rfl | hr
    · rfl
    · exact ih _ _ r hr

theorem tasteRows_id_ge (now : Nat → Time) (foodID : Int) (k : Nat) (seq : Int)
    (xs : List Int) : ∀ r ∈ tasteRows now foodID k seq xs, seq ≤ r.id := by
  induction xs generalizing k seq with
  | nil => simp [tasteRows]
  | cons x xs ih =>
    intro r hr
    simp only [tasteRows, List.mem_cons] at hr
    rcases hr with rfl | hr
    · exact le_refl _
    · have := ih _ _ r hr
      omega

/-! ## Lemmas on `Update` and `Insert` -/

theorem length_pos_of_ne_nil {α : Type} {l : List α} (h : l ≠ []) : l.length > 0 :=
  List.length_pos.mpr h

theorem Update_err (env : Env) (fs : Faults) (now : Nat → Time) (s : Store) (f : Food) :
    (Data.Update env fs now s f).2 =
      match nextFault fs with
      | some m => some (.driver m)
      | none =>
        if f.TasteIDs.length > 0 then
          (firstFault (f.TasteIDs.length + 1) fs.tail).map
            (fun m => Error.errorf (Data.tastesNotSaved ++ m))
        else none := by
  unfold Data.Update
  cases nextFault fs with
  | some m => rfl
  | none =>
    simp only []
    split
    · simp only [firstFault]
      cases nextFault fs.tail with
      | some m => rfl
      | none => exact addTastes_err _ _ _ _ _ _
    · rfl

/-- The store a successful `Update` with taste ids leaves. -/
theorem Update_ok_store (env : Env) (fs : Faults) (now : Nat → Time) (s : Store) (f : Food)
    (hne : f.TasteIDs ≠ []) (hok : (Data.Update env fs now s f).2 = none) :
    (Data.Update env fs now s f).1.foods_tastes =
        s.foods_tastes.filter (fun r => r.food_id ≠ f.ID) ++
          tasteRows now f.ID 1 s.foods_tastes_id_seq f.TasteIDs ∧
      (Data.Update env fs now s f).1.foods =
        (Data.updateFoods s f.KnownAs f.CountryID f.MakeYear (env.Slugify f.KnownAs)
          f.Description (now 0) f.ID).foods ∧
      (Data.Update env fs now s f).1.countries = s.countries ∧
      (Data.Update env fs now s f).1.tastes = s.tastes := by
  have hlen := length_pos_of_ne_nil hne
  have herr := Update_err env fs now s f
  rw [hok] at herr
  unfold Data.Update
  cases h1 : nextFault fs with
  | some m => simp [h1] at herr
  | none =>
    simp only [h1, hlen, if_true, firstFault] at herr
    simp only [hlen, if_true]
    cases h2 : nextFault fs.tail with
    | some m => simp [h2] at herr
    | none =>
      simp only [h2] at herr
      have h3 : firstFault f.TasteIDs.length fs.tail.tail = none := by
        cases h4 : firstFault f.TasteIDs.length fs.tail.tail with
        | none => rfl
        | some m => simp [h4] at herr
      simp only []
      obtain ⟨hf, hc, ht, _⟩ := addTastes_frame now f.ID fs.tail.tail 1 f.TasteIDs
        (deleteFoodsTastes (Data.updateFoods s f.KnownAs f.CountryID f.MakeYear
          (env.Slugify f.KnownAs) f.Description (now 0) f.ID) f.ID)
      refine ⟨?_, hf, hc, ht⟩
      rw [addTastes_ok _ _ _ _ _ _ h3]
      rfl

/-- An `Update` without taste ids leaves the join table as it was. -/
theorem Update_nil_foods_tastes (env : Env) (fs : Faults) (now : Nat → Time) (s : Store) (f : Food)
    (hnil : f.TasteIDs = []) :
    (Data.Update env fs now s f).1.foods_tastes = s.foods_tastes ∧
      (Data.Update env fs now s f).1.tastes = s.tastes := by
  unfold Data.Update
  cases nextFault fs with
  | some m => exact ⟨rfl, rfl⟩
  | none => simp [hnil, Data.updateFoods]

/-- Without faults `Update` returns no error. -/
theorem Update_noFaults (env : Env) (now : Nat → Time) (s : Store) (f : Food) :
    (Data.Update env noFaults now s f).2 = none := by
  rw [Update_err]
  have h : ∀ n, firstFault n [] = none := by
    intro n
    induction n with
    | zero => rfl
    | succ n ih => simpa [firstFault, nextFault] using ih
  simp [noFaults, nextFault, h]

theorem Update_ok_frame (env : Env) (fs : Faults) (now : Nat → Time) (s : Store) (f : Food)
    (hok : (Data.Update env fs now s f).2 = none) :
    (Data.Update env fs now s f).1.foods =
        (Data.updateFoods s f.KnownAs f.CountryID f.MakeYear (env.Slugify f.KnownAs)
          f.Description (now 0) f.ID).foods ∧
      (Data.Update env fs now s f).1.countries = s.countries ∧
      (Data.Update env fs now s f).1.tastes = s.tastes := by
  by_cases hne : f.TasteIDs = []
  · revert hok
    unfold Data.Update
    cases nextFault fs with
    | some m => simp
    | none => simp [hne, Data.updateFoods]
  · exact (Update_ok_store env fs now s f hne hok).2

theorem find?_updateFoods (s : Store) (knownAs : String) (countryID makeYear : Int)
    (slug description : String) (updated : Time) (id : Int) (r : FoodRow) (hr : r ∈ s.foods)
    (hid : r.id = id) :
    ∃ r0 ∈ s.foods, r0.id = id ∧
      (Data.updateFoods s knownAs countryID makeYear slug description updated id).foods.find?
          (fun f => f.id = id) =
        some { r0 with known_as := knownAs, country_id := countryID, make_year := makeYear,
                       slug := slug, description := description, updated_at := updated } := by
  have hsome : (s.foods.find? (fun f => decide (f.id = id))).isSome := by
    rw [List.find?_isSome]
    exact ⟨r, hr, by simp [hid]⟩
  obtain ⟨r0, hr0⟩ := Option.isSome_iff_exists.mp hsome
  have hmem := List.mem_of_find?_eq_some hr0
  have hp : r0.id = id := by simpa using List.find?_some hr0
  refine ⟨r0, hmem, hp, ?_⟩
  unfold Data.updateFoods
  simp only [List.find?_map]
  have hcomp : ((fun f : FoodRow => decide (f.id = id)) ∘ fun r : FoodRow =>
      if r.id = id then
        { r with known_as := knownAs, country_id := countryID, make_year := makeYear,
                 slug := slug, description := description, updated_at := updated }
      else r) = fun f => decide (f.id = id) := by
    funext x
    simp only [Function.comp]
    split <;> simp_all
  rw [hcomp, hr0]
  simp [hp]

/-- Reading a food back after a successful `Update`: the lookup by id succeeds
when the food's row and the country of the update exist, and returns the
updated row with the tastes joined to it in the store `Update` left. -/
theorem read_after_Update (env : Env) (fs : Faults) (now : Nat → Time) (s : Store) (f : Food)
    (hrow : ∃ r ∈ s.foods, r.id = f.ID) (hcountry : ∃ c ∈ s.countries, c.ID = f.CountryID)
    (hok : (Data.Update env fs now s f).2 = none) :
    ∃ food, Data.GetOneById env noFaults (Data.Update env fs now s f).1 f.ID = .ok food ∧
      food.ID = f.ID ∧ food.KnownAs = f.KnownAs ∧ food.Slug = env.Slugify f.KnownAs ∧
      food.Tastes = tasteQuery env (Data.Update env fs now s f).1 f.ID ∧
      food.TasteIDs = food.Tastes.map (fun t => t.ID) := by
  obtain ⟨hfoods, hcs, _⟩ := Update_ok_frame env fs now s f hok
  obtain ⟨r, hr, hid⟩ := hrow
  obtain ⟨r0, _, hid0, hfind⟩ := find?_updateFoods s f.KnownAs f.CountryID f.MakeYear
    (env.Slugify f.KnownAs) f.Description (now 0) f.ID r hr hid
  obtain ⟨c, hc, hcid⟩ := hcountry
  have hsome : (s.countries.find? (fun c => decide (f.CountryID = c.ID))).isSome := by
    rw [List.find?_isSome]
    exact ⟨c, hc, by simp [hcid]⟩
  obtain ⟨c0, hc0⟩ := Option.isSome_iff_exists.mp hsome
  rw [GetOneById_noFaults, hfoods, hfind]
  simp only [lookupResult, hcs, hc0]
  exact ⟨_, rfl, hid0, rfl, rfl, by simp [foodOf, hid0], rfl⟩

theorem firstFault_nil (n : Nat) : firstFault n [] = none := by
  induction n with
  | zero => rfl
  | succ n ih => simpa [firstFault, nextFault] using ih

theorem Insert_err (env : Env) (fs : Faults) (now : Nat → Time) (s : Store) (food : Food) :
    (Data.Insert env fs now s food).err =
      match nextFault fs with
      | some m => some (.driver m)
      | none =>
        if food.TasteIDs.length > 0 then
          (firstFault (food.TasteIDs.length + 1) fs.tail).map
            (fun m => Error.errorf (Data.tastesNotSaved ++ m))
        else none := by
  unfold Data.Insert
  cases nextFault fs with
  | some m => rfl
  | none =>
    simp only []
    split
    · simp only [firstFault]
      cases nextFault fs.tail with
      | some m => rfl
      | none => exact addTastes_err _ _ _ _ _ _
    · rfl

/-- Without faults `Insert` returns no error. -/
theorem Insert_noFaults (env : Env) (now : Nat → Time) (s : Store) (food : Food) :
    (Data.Insert env noFaults now s food).err = none := by
  rw [Insert_err]
  simp [noFaults, nextFault, firstFault_nil]

/-- What `Insert` leaves outside the join table once the foods row is written. -/
theorem Insert_frame (env : Env) (fs : Faults) (now : Nat → Time) (s : Store) (food : Food)
    (h : nextFault fs = none) :
    (Data.Insert env fs now s food).id = s.foods_id_seq ∧
      (Data.Insert env fs now s food).store.foods =
        s.foods ++ [insertedRow env now s.foods_id_seq food] ∧
      (Data.Insert env fs now s food).store.countries = s.countries ∧
      (Data.Insert env fs now s food).store.tastes = s.tastes ∧
      (Data.Insert env fs now s food).store.foods_id_seq = s.foods_id_seq + 1 := by
  unfold Data.Insert
  rw [h]
  by_cases hlen : food.TasteIDs.length > 0
  · rw [if_pos hlen]
    cases nextFault fs.tail with
    | some m => exact ⟨rfl, rfl, rfl, rfl, rfl⟩
    | none =>
      obtain ⟨hf, hc, ht, hq⟩ := addTastes_frame now s.foods_id_seq fs.tail.tail 2 food.TasteIDs
        (deleteFoodsTastes { s with
          foods := s.foods ++ [⟨s.foods_id_seq, food.KnownAs, food.CountryID, food.MakeYear,
            now 0, now 1, env.Slugify food.KnownAs, food.Description⟩]
          foods_id_seq := s.foods_id_seq + 1 } food.ID)
      exact ⟨rfl, hf, hc, ht, hq⟩
  · rw [if_neg hlen]
    exact ⟨rfl, rfl, rfl, rfl, rfl⟩

theorem nextFault_of_Insert_ok (env : Env) (fs : Faults) (now : Nat → Time) (s : Store)
    (food : Food) (hok : (Data.Insert env fs now s food).err = none) : nextFault fs = none := by
  rw [Insert_err] at hok
  cases h : nextFault fs with
  | none => rfl
  | some m => simp [h] at hok

/-- The join table a successful `Insert` with taste ids leaves: the rows of the
id carried by the food value are deleted, the new rows carry the generated id. -/
theorem Insert_ok_foods_tastes (env : Env) (fs : Faults) (now : Nat → Time) (s : Store)
    (food : Food) (hne : food.TasteIDs ≠ [])
    (hok : (Data.Insert env fs now s food).err = none) :
    (Data.Insert env fs now s food).store.foods_tastes =
      s.foods_tastes.filter (fun r => r.food_id ≠ food.ID) ++
        tasteRows now s.foods_id_seq 2 s.foods_tastes_id_seq food.TasteIDs := by
  have hlen := length_pos_of_ne_nil hne
  have herr := Insert_err env fs now s food
  rw [hok] at herr
  unfold Data.Insert
  cases h1 : nextFault fs with
  | some m => simp [h1] at herr
  | none =>
    simp only [h1, hlen, if_true, firstFault] at herr
    simp only [hlen, if_true]
    cases h2 : nextFault fs.tail with
    | some m => simp [h2] at herr
    | none =>
      simp only [h2] at herr
      have h3 : firstFault food.TasteIDs.length fs.tail.tail = none := by
        cases h4 : firstFault food.TasteIDs.length fs.tail.tail with
        | none => rfl
        | some m => simp [h4] at herr
      simp only []
      rw [addTastes_ok _ _ _ _ _ _ h3]
      rfl

/-- An `Insert` without taste ids leaves the join table as it was. -/
theorem Insert_nil_foods_tastes (env : Env) (fs : Faults) (now : Nat → Time) (s : Store)
    (food : Food) (hnil : food.TasteIDs = []) :
    (Data.Insert env fs now s food).store.foods_tastes = s.foods_tastes := by
  unfold Data.Insert
  cases nextFault fs with
  | some m => rfl
  | none => simp [hnil]

/-- The lookup by the generated id finds the inserted row. -/
theorem find?_id_after_Insert (env : Env) (now : Nat → Time) (s : Store) (food : Food)
    (hseq : ∀ r ∈ s.foods, r.id < s.foods_id_seq) :
    (s.foods ++ [insertedRow env now s.foods_id_seq food]).find?
        (fun f => f.id = s.foods_id_seq) =
      some (insertedRow env now s.foods_id_seq food) := by
  have hnone : s.foods.find? (fun f => decide (f.id = s.foods_id_seq)) = none := by
    rw [List.find?_eq_none]
    intro r hr
    have := hseq r hr
    simp only [decide_eq_true_eq]
    omega
  rw [List.find?_append, hnone]
  simp [insertedRow]

/-- The lookup by the derived slug finds the inserted row when no earlier row has that slug. -/
theorem find?_slug_after_Insert (env : Env) (now : Nat → Time) (s : Store) (food : Food)
    (hslug : ∀ r ∈ s.foods, r.slug ≠ env.Slugify food.KnownAs) :
    (s.foods ++ [insertedRow env now s.foods_id_seq food]).find?
        (fun f => f.slug = env.Slugify food.KnownAs) =
      some (insertedRow env now s.foods_id_seq food) := by
  have hnone : s.foods.find? (fun f => decide (f.slug = env.Slugify food.KnownAs)) = none := by
    rw [List.find?_eq_none]
    intro r hr
    simpa using hslug r hr
  rw [List.find?_append, hnone]
  simp [insertedRow]

/-! ## The identity invariant is kept by every write -/

theorem seedStore_IdentityInv : IdentityInv seedStore := by
  unfold IdentityInv
  decide

theorem addTastes_join_ids (now : Nat → Time) (foodID : Int) (fs : Faults) (k : Nat)
    (xs : List Int) (s : Store) (h : ∀ r ∈ s.foods_tastes, r.id < s.foods_tastes_id_seq) :
    ∀ r ∈ (Data.addTastes now foodID fs k xs s).1.foods_tastes,
      r.id < (Data.addTastes now foodID fs k xs s).1.foods_tastes_id_seq := by
  induction xs generalizing fs k s with
  | nil => exact h
  | cons x xs ih =>
    unfold Data.addTastes
    cases nextFault fs with
    | some m => exact h
    | none =>
      apply ih
      intro r hr
      simp only [insertFoodsTastes, List.mem_append, List.mem_singleton] at hr ⊢
      rcases hr with hr | rfl
      · have := h r hr
        omega
      · simp

theorem Insert_IdentityInv (env : Env) (fs : Faults) (now : Nat → Time) (s : Store)
    (food : Food) (h : IdentityInv s) : IdentityInv (Data.Insert env fs now s food).store := by
  obtain ⟨h1, h2, h3⟩ := h
  cases hf : nextFault fs with
  | some m =>
    unfold Data.Insert
    rw [hf]
    exact ⟨h1, h2, h3⟩
  | none =>
    obtain ⟨_, hfoods, _, _, hseq⟩ := Insert_frame env fs now s food hf
    refine ⟨?_, ?_, ?_⟩
    · rw [hfoods, hseq]
      intro r hr
      rcases List.mem_append.mp hr with hr | hr
      · have := h1 r hr
        omega
      · rw [List.mem_singleton.mp hr]
        simp [insertedRow]
    · rw [hfoods, List.map_append, List.nodup_append]
      refine ⟨h2, by simp, ?_⟩
      intro a ha hb
      obtain ⟨r, hr, rfl⟩ := List.mem_map.mp ha
      simp only [List.map_cons, List.map_nil, List.mem_singleton, insertedRow] at hb
      have := h1 r hr
      omega
    · unfold Data.Insert
      rw [hf]
      by_cases hlen : food.TasteIDs.length > 0
      · rw [if_pos hlen]
        cases nextFault fs.tail with
        | some m => exact h3
        | none =>
          apply addTastes_join_ids
          intro r hr
          exact h3 r (List.mem_filter.mp hr).1
      · rw [if_neg hlen]
        exact h3

theorem Update_IdentityInv (env : Env) (fs : Faults) (now : Nat → Time) (s : Store)
    (f : Food) (h : IdentityInv s) : IdentityInv (Data.Update env fs now s f).1 := by
  obtain ⟨h1, h2, h3⟩ := h
  have hmap : ∀ (g : FoodRow → FoodRow), (∀ r, (g r).id = r.id) →
      (∀ r ∈ s.foods.map g, r.id < s.foods_id_seq) ∧
        ((s.foods.map g).map (fun r => r.id)).Nodup := by
    intro g hg
    constructor
    · intro r hr
      obtain ⟨r0, hr0, rfl⟩ := List.mem_map.mp hr
      rw [hg]
      exact h1 r0 hr0
    · rw [List.map_map]
      have : ((fun r : FoodRow => r.id) ∘ g) = fun r => r.id := funext hg
      rw [this]
      exact h2
  have hupd := hmap (fun r =>
      if r.id = f.ID then
        { r with known_as := f.KnownAs, country_id := f.CountryID, make_year := f.MakeYear,
                 slug := env.Slugify f.KnownAs, description := f.Description,
                 updated_at := now 0 }
      else r) (by intro r; by_cases hr : r.id = f.ID <;> simp [hr])
  unfold Data.Update
  cases nextFault fs with
  | some m => exact ⟨h1, h2, h3⟩
  | none =>
    by_cases hlen : f.TasteIDs.length > 0
    · simp only [hlen, if_true]
      cases nextFault fs.tail with
      | some m => exact ⟨hupd.1, hupd.2, h3⟩
      | none =>
        obtain ⟨hf, _, _, hq⟩ := addTastes_frame now f.ID fs.tail.tail 1 f.TasteIDs
          (deleteFoodsTastes (Data.updateFoods s f.KnownAs f.CountryID f.MakeYear
            (env.Slugify f.KnownAs) f.Description (now 0) f.ID) f.ID)
        refine ⟨?_, ?_, ?_⟩
        · rw [hf, hq]
          exact hupd.1
        · rw [hf]
          exact hupd.2
        · apply addTastes_join_ids
          intro r hr
          exact h3 r (List.mem_filter.mp hr).1
    · simp only [hlen, if_false]
      exact ⟨hupd.1, hupd.2, h3⟩

theorem DeleteByID_IdentityInv (fs : Faults) (s : Store) (foodID : Int) (h : IdentityInv s) :
    IdentityInv (Data.DeleteByID fs s foodID).1 := by
  obtain ⟨h1, h2, h3⟩ := h
  unfold Data.DeleteByID
  cases nextFault fs with
  | some m => exact ⟨h1, h2, h3⟩
  | none =>
    refine ⟨fun r hr => h1 r (List.mem_filter.mp hr).1, ?_, h3⟩
    exact h2.sublist ((List.filter_sublist _).map _)

/-! ## Update: the taste set read back (C1) and the join rows written (C2) -/

/-- C1, as amended: for a food whose row exists and whose updated country id
names a countries row, a successful `Update` with a non-empty list of ids of
existing tastes is read back by `GetOneById` with exactly those taste ids;
an `Update` with no taste ids leaves the join table, and so the tastes read
for the food, as they were. -/
theorem Update_read_back_tastes (env : Env) (fs : Faults) (now : Nat → Time) (s : Store)
    (f : Food) :
    (f.TasteIDs ≠ [] → (∃ r ∈ s.foods, r.id = f.ID) →
      (∃ c ∈ s.countries, c.ID = f.CountryID) →
      (∀ x ∈ f.TasteIDs, ∃ t ∈ s.tastes, t.ID = x) →
      (Data.Update env fs now s f).2 = none →
      ∃ food, Data.GetOneById env noFaults (Data.Update env fs now s f).1 f.ID = .ok food ∧
        food.TasteIDs = food.Tastes.map (fun t => t.ID) ∧
        ∀ x, x ∈ food.Tastes.map (fun t => t.ID) ↔ x ∈ f.TasteIDs) ∧
    (f.TasteIDs = [] →
      (Data.Update env fs now s f).1.foods_tastes = s.foods_tastes ∧
      tasteQuery env (Data.Update env fs now s f).1 f.ID = tasteQuery env s f.ID) := by
  constructor
  · intro hne hrow hcountry hex hok
    obtain ⟨food, hget, _, _, _, htastes, hids⟩ :=
      read_after_Update env fs now s f hrow hcountry hok
    refine ⟨food, hget, hids, ?_⟩
    obtain ⟨hjoin, _, _, hts⟩ := Update_ok_store env fs now s f hne hok
    intro x
    rw [htastes]
    simp only [List.mem_map, mem_tasteQuery, hts, hjoin, List.mem_append, List.mem_filter]
    constructor
    · rintro ⟨t, ⟨_, r, hr, hfid, htid⟩, rfl⟩
      rcases hr with ⟨_, hr⟩ | hr
      · simp [hfid] at hr
      · rw [← htid, ← tasteRows_taste_id now f.ID 1 s.foods_tastes_id_seq f.TasteIDs]
        exact List.mem_map_of_mem _ hr
    · intro hx
      obtain ⟨t, ht, hid⟩ := hex x hx
      have hx2 := hx
      rw [← tasteRows_taste_id now f.ID 1 s.foods_tastes_id_seq f.TasteIDs] at hx2
      obtain ⟨r, hr, hrid⟩ := List.mem_map.mp hx2
      exact ⟨t, ⟨ht, r, Or.inr hr, tasteRows_food_id _ _ _ _ _ r hr, by rw [hrid, hid]⟩, hid⟩
  · intro hnil
    obtain ⟨hjoin, hts⟩ := Update_nil_foods_tastes env fs now s f hnil
    refine ⟨hjoin, ?_⟩
    unfold tasteQuery
    rw [hjoin, hts]

/-- Witness of C1: the seeded Hamburger updated with the tastes 2 and 5. -/
theorem Update_read_back_tastes_witness :
    ∃ food, Data.GetOneById demoEnv noFaults
        (Data.Update demoEnv noFaults sampleClock seedStore
          (sampleFood 1 "Hamburger" 1 "" [2, 5])).1 1 = .ok food ∧
      food.TasteIDs = food.Tastes.map (fun t => t.ID) ∧
      ∀ x, x ∈ food.Tastes.map (fun t => t.ID) ↔ x ∈ [2, 5] :=
  (Update_read_back_tastes demoEnv noFaults sampleClock seedStore
    (sampleFood 1 "Hamburger" 1 "" [2, 5])).1 (by decide) (by decide) (by decide) (by decide)
    (by decide)

/-- C1 fails as stated: updating the seeded Hamburger with no taste ids
succeeds and the food still has its taste 3; updating it with taste 3 and a
country id that names no country succeeds and the food cannot be read back. -/
theorem Update_read_back_tastes_counterexample :
    ((Data.Update demoEnv noFaults sampleClock seedStore
        (sampleFood 1 "Hamburger" 1 "" [])).2 = none ∧
      Data.GetOneById demoEnv noFaults
        (Data.Update demoEnv noFaults sampleClock seedStore
          (sampleFood 1 "Hamburger" 1 "" [])).1 1 =
        .ok { ID := 1, KnownAs := "Hamburger", CountryID := 1, MakeYear := 2022,
              Slug := "hamburger", Country := ⟨1, "John Smith", 20220305, 20220305⟩,
              Description := "", Tastes := [⟨3, "sour", 20220101, 20220101⟩],
              CreatedAt := 20220101, UpdatedAt := 20221104, TasteIDs := [3] }) ∧
    ((Data.Update demoEnv noFaults sampleClock seedStore
        (sampleFood 1 "Hamburger" 9 "" [3])).2 = none ∧
      Data.GetOneById demoEnv noFaults
        (Data.Update demoEnv noFaults sampleClock seedStore
          (sampleFood 1 "Hamburger" 9 "" [3])).1 1 = .error .scanNull) := by
  decide

/-- C2: a successful `Update` with a non-empty list of taste ids leaves, as the
join rows of the food, exactly the rows the loop wrote, one per element of the
list and in its order, each with the food id, that taste id and its own two
clock readings; the rows of other foods stay; and, the identities of the join
rows lying below their sequence, no join row the food had before is in the
table afterwards. -/
theorem Update_replaces_join_rows (env : Env) (fs : Faults) (now : Nat → Time) (s : Store)
    (f : Food) (hne : f.TasteIDs ≠ []) (hok : (Data.Update env fs now s f).2 = none) :
    (Data.Update env fs now s f).1.foods_tastes.filter (fun r => r.food_id = f.ID) =
        tasteRows now f.ID 1 s.foods_tastes_id_seq f.TasteIDs ∧
      ((Data.Update env fs now s f).1.foods_tastes.filter (fun r => r.food_id = f.ID)).map
        (fun r => r.taste_id) = f.TasteIDs ∧
      (Data.Update env fs now s f).1.foods_tastes.filter (fun r => r.food_id ≠ f.ID) =
        s.foods_tastes.filter (fun r => r.food_id ≠ f.ID) ∧
      ((∀ r ∈ s.foods_tastes, r.id < s.foods_tastes_id_seq) →
        ∀ r ∈ s.foods_tastes, r.food_id = f.ID →
          r ∉ (Data.Update env fs now s f).1.foods_tastes) := by
  obtain ⟨hjoin, _⟩ := Update_ok_store env fs now s f hne hok
  have hnew : (tasteRows now f.ID 1 s.foods_tastes_id_seq f.TasteIDs).filter
      (fun r => r.food_id = f.ID) = tasteRows now f.ID 1 s.foods_tastes_id_seq f.TasteIDs := by
    rw [List.filter_eq_self]
    intro r hr
    simp [tasteRows_food_id _ _ _ _ _ r hr]
  have hnew2 : (tasteRows now f.ID 1 s.foods_tastes_id_seq f.TasteIDs).filter
      (fun r => r.food_id ≠ f.ID) = [] := by
    rw [List.filter_eq_nil_iff]
    intro r hr
    simp [tasteRows_food_id _ _ _ _ _ r hr]
  have hold : (s.foods_tastes.filter (fun r => r.food_id ≠ f.ID)).filter
      (fun r => r.food_id = f.ID) = [] := by
    rw [List.filter_eq_nil_iff]
    intro r hr
    have := (List.mem_filter.mp hr).2
    simpa using this
  have hfilter : (Data.Update env fs now s f).1.foods_tastes.filter
      (fun r => r.food_id = f.ID) = tasteRows now f.ID 1 s.foods_tastes_id_seq f.TasteIDs := by
    rw [hjoin, List.filter_append, hold, hnew, List.nil_append]
  refine ⟨hfilter, ?_, ?_, ?_⟩
  · rw [hfilter, tasteRows_taste_id]
  · rw [hjoin, List.filter_append, hnew2, List.append_nil, List.filter_filter]
    simp
  · intro hseq r hr hfid hmem
    rw [hjoin, List.mem_append] at hmem
    rcases hmem with h | h
    · have := (List.mem_filter.mp h).2
      simp [hfid] at this
    · have h1 := tasteRows_id_ge _ _ _ _ _ r h
      have h2 := hseq r hr
      omega

/-- Witness of C2: the seeded Hamburger updated with the tastes 2 and 5; its old
join row, with taste 3, is gone. -/
theorem Update_replaces_join_rows_witness :
    ((Data.Update demoEnv noFaults sampleClock seedStore
        (sampleFood 1 "Hamburger" 1 "" [2, 5])).1.foods_tastes.filter
          (fun r => r.food_id = 1) =
        tasteRows sampleClock 1 1 2 [2, 5] ∧
      ((Data.Update demoEnv noFaults sampleClock seedStore
        (sampleFood 1 "Hamburger" 1 "" [2, 5])).1.foods_tastes.filter
          (fun r => r.food_id = 1)).map (fun r => r.taste_id) = [2, 5] ∧
      (Data.Update demoEnv noFaults sampleClock seedStore
        (sampleFood 1 "Hamburger" 1 "" [2, 5])).1.foods_tastes.filter
          (fun r => r.food_id ≠ 1) =
        seedStore.foods_tastes.filter (fun r => r.food_id ≠ 1) ∧
      ((∀ r ∈ seedStore.foods_tastes, r.id < seedStore.foods_tastes_id_seq) →
        ∀ r ∈ seedStore.foods_tastes, r.food_id = 1 →
          r ∉ (Data.Update demoEnv noFaults sampleClock seedStore
            (sampleFood 1 "Hamburger" 1 "" [2, 5])).1.foods_tastes)) ∧
    (Data.Update demoEnv noFaults sampleClock seedStore
        (sampleFood 1 "Hamburger" 1 "" [2, 5])).1.foods_tastes =
      [⟨2, 1, 2, 20221105, 20221106⟩, ⟨3, 1, 5, 20221107, 20221108⟩] :=
  ⟨Update_replaces_join_rows demoEnv noFaults sampleClock seedStore
    (sampleFood 1 "Hamburger" 1 "" [2, 5]) (by decide) (by decide), by decide⟩

/-! ## Insert: the food read back by id and by slug (C3, C6) -/

/-- The food read back by id after a successful `Insert`, when the identities
of the stored foods lie below the sequence and the country exists. -/
theorem read_after_Insert (env : Env) (fs : Faults) (now : Nat → Time) (s : Store) (food : Food)
    (hseq : ∀ r ∈ s.foods, r.id < s.foods_id_seq)
    (hcountry : ∃ c ∈ s.countries, c.ID = food.CountryID)
    (hok : (Data.Insert env fs now s food).err = none) :
    ∃ c ∈ s.countries, c.ID = food.CountryID ∧
      Data.GetOneById env noFaults (Data.Insert env fs now s food).store
          (Data.Insert env fs now s food).id =
        .ok (foodOf env (Data.Insert env fs now s food).store
          (insertedRow env now s.foods_id_seq food) c) := by
  obtain ⟨hid, hfoods, hcs, _, _⟩ :=
    Insert_frame env fs now s food (nextFault_of_Insert_ok env fs now s food hok)
  obtain ⟨c, hc, hcid⟩ := hcountry
  have hsome : (s.countries.find? (fun c => decide (food.CountryID = c.ID))).isSome := by
    rw [List.find?_isSome]
    exact ⟨c, hc, by simp [hcid]⟩
  obtain ⟨c0, hc0⟩ := Option.isSome_iff_exists.mp hsome
  refine ⟨c0, List.mem_of_find?_eq_some hc0, ?_, ?_⟩
  · have := List.find?_some hc0
    simp only [decide_eq_true_eq] at this
    exact this.symm
  · rw [GetOneById_noFaults, hfoods, hid, find?_id_after_Insert env now s food hseq]
    simp only [lookupResult, hcs]
    have hrow : (insertedRow env now s.foods_id_seq food).country_id = food.CountryID := rfl
    rw [hrow, hc0]

/-- C3, as amended: when the identities of the stored foods lie below the
sequence, no join row already carries the identity about to be generated, the
country of the food value exists and its non-empty list of taste ids names
existing tastes, a successful `Insert` returning `n` is read back by
`GetOneById n` as a food with identity `n`, the display name and derived slug
of the value and exactly those taste ids; `GetOneBySlug` of the derived slug
returns the same food when no earlier foods row has that slug. -/
theorem Insert_read_back_tastes (env : Env) (fs : Faults) (now : Nat → Time) (s : Store)
    (food : Food) (hseq : ∀ r ∈ s.foods, r.id < s.foods_id_seq)
    (hfresh : ∀ r ∈ s.foods_tastes, r.food_id ≠ s.foods_id_seq)
    (hcountry : ∃ c ∈ s.countries, c.ID = food.CountryID) (hne : food.TasteIDs ≠ [])
    (hex : ∀ x ∈ food.TasteIDs, ∃ t ∈ s.tastes, t.ID = x)
    (hok : (Data.Insert env fs now s food).err = none) :
    ∃ got, Data.GetOneById env noFaults (Data.Insert env fs now s food).store
          (Data.Insert env fs now s food).id = .ok got ∧
      got.ID = (Data.Insert env fs now s food).id ∧ got.KnownAs = food.KnownAs ∧
      got.Slug = env.Slugify food.KnownAs ∧
      (∀ x, x ∈ got.Tastes.map (fun t => t.ID) ↔ x ∈ food.TasteIDs) ∧
      ((∀ r ∈ s.foods, r.slug ≠ env.Slugify food.KnownAs) →
        Data.GetOneBySlug env noFaults (Data.Insert env fs now s food).store
          (env.Slugify food.KnownAs) = .ok got) := by
  obtain ⟨c, _, hcid, hget⟩ := read_after_Insert env fs now s food hseq hcountry hok
  obtain ⟨hid, hfoods, hcs, hts, _⟩ :=
    Insert_frame env fs now s food (nextFault_of_Insert_ok env fs now s food hok)
  have hjoin := Insert_ok_foods_tastes env fs now s food hne hok
  refine ⟨_, hget, hid.symm, rfl, rfl, ?_, ?_⟩
  · intro x
    simp only [foodOf, insertedRow, List.mem_map, mem_tasteQuery, hts, hjoin, List.mem_append,
      List.mem_filter]
    constructor
    · rintro ⟨t, ⟨_, r, hr, hfid, htid⟩, rfl⟩
      rcases hr with ⟨hr, _⟩ | hr
      · exact absurd hfid (hfresh r hr)
      · rw [← htid, ← tasteRows_taste_id now s.foods_id_seq 2 s.foods_tastes_id_seq
          food.TasteIDs]
        exact List.mem_map_of_mem _ hr
    · intro hx
      obtain ⟨t, ht, htid⟩ := hex x hx
      have hx2 := hx
      rw [← tasteRows_taste_id now s.foods_id_seq 2 s.foods_tastes_id_seq food.TasteIDs] at hx2
      obtain ⟨r, hr, hrid⟩ := List.mem_map.mp hx2
      exact ⟨t, ⟨ht, r, Or.inr hr, tasteRows_food_id _ _ _ _ _ r hr, by rw [hrid, htid]⟩, htid⟩
  · intro hslug
    rw [GetOneBySlug_noFaults, hfoods, find?_slug_after_Insert env now s food hslug]
    rw [GetOneById_noFaults, hfoods, hid, find?_id_after_Insert env now s food hseq] at hget
    exact hget

/-- Witness of C3: the scenario of the tests, Hamburger of country 1 with the
taste ids `[3]`, inserted into the store that holds the country and the tastes. -/
theorem Insert_read_back_tastes_witness :
    ∃ got, Data.GetOneById demoEnv noFaults
          (Data.Insert demoEnv noFaults sampleClock baseStore
            (sampleFood 0 "Hamburger" 1 "" [3])).store
          (Data.Insert demoEnv noFaults sampleClock baseStore
            (sampleFood 0 "Hamburger" 1 "" [3])).id = .ok got ∧
      got.ID = (Data.Insert demoEnv noFaults sampleClock baseStore
            (sampleFood 0 "Hamburger" 1 "" [3])).id ∧
      got.KnownAs = "Hamburger" ∧ got.Slug = demoEnv.Slugify "Hamburger" ∧
      (∀ x, x ∈ got.Tastes.map (fun t => t.ID) ↔ x ∈ [3]) ∧
      ((∀ r ∈ baseStore.foods, r.slug ≠ demoEnv.Slugify "Hamburger") →
        Data.GetOneBySlug demoEnv noFaults
          (Data.Insert demoEnv noFaults sampleClock baseStore
            (sampleFood 0 "Hamburger" 1 "" [3])).store
          (demoEnv.Slugify "Hamburger") = .ok got) :=
  Insert_read_back_tastes demoEnv noFaults sampleClock baseStore
    (sampleFood 0 "Hamburger" 1 "" [3]) (by decide) (by decide) (by decide) (by decide)
    (by decide) (by decide)

/-- C3 fails as stated: a second Hamburger with the taste ids `[2]` is inserted
with identity 2, and the lookup by its slug returns the first Hamburger with
taste 3; a food whose country id names no country is inserted with identity 2
and cannot be read back by that id. -/
theorem Insert_read_back_tastes_counterexample :
    ((Data.Insert demoEnv noFaults sampleClock seedStore
        (sampleFood 0 "Hamburger" 1 "" [2])).err = none ∧
      (Data.Insert demoEnv noFaults sampleClock seedStore
        (sampleFood 0 "Hamburger" 1 "" [2])).id = 2 ∧
      Data.GetOneBySlug demoEnv noFaults
        (Data.Insert demoEnv noFaults sampleClock seedStore
          (sampleFood 0 "Hamburger" 1 "" [2])).store (demoEnv.Slugify "Hamburger") =
        .ok { ID := 1, KnownAs := "Hamburger", CountryID := 1, MakeYear := 2022,
              Slug := "hamburger", Country := ⟨1, "John Smith", 20220305, 20220305⟩,
              Description := "Hamburger description",
              Tastes := [⟨3, "sour", 20220101, 20220101⟩],
              CreatedAt := 20220101, UpdatedAt := 20220101, TasteIDs := [3] }) ∧
    ((Data.Insert demoEnv noFaults sampleClock seedStore
        (sampleFood 0 "Pho" 9 "" [3])).err = none ∧
      (Data.Insert demoEnv noFaults sampleClock seedStore
        (sampleFood 0 "Pho" 9 "" [3])).id = 2 ∧
      Data.GetOneById demoEnv noFaults
        (Data.Insert demoEnv noFaults sampleClock seedStore
          (sampleFood 0 "Pho" 9 "" [3])).store 2 = .error .scanNull) := by
  decide

/-- C6, as amended: when the identities of the stored foods lie below the
sequence and no stored foods row has the slug derived from the display name,
after a successful `Insert` returning `i` the lookup by that slug and the
lookup by `i` give the same result, the one built from the inserted row; it is
a food with identity `i` when the country of the food value exists. -/
theorem Insert_slug_lookup_eq_id_lookup (env : Env) (fs : Faults) (now : Nat → Time)
    (s : Store) (food : Food) (hseq : ∀ r ∈ s.foods, r.id < s.foods_id_seq)
    (hslug : ∀ r ∈ s.foods, r.slug ≠ env.Slugify food.KnownAs)
    (hok : (Data.Insert env fs now s food).err = none) :
    Data.GetOneBySlug env noFaults (Data.Insert env fs now s food).store
        (env.Slugify food.KnownAs) =
      Data.GetOneById env noFaults (Data.Insert env fs now s food).store
        (Data.Insert env fs now s food).id ∧
    Data.GetOneById env noFaults (Data.Insert env fs now s food).store
        (Data.Insert env fs now s food).id =
      lookupResult env (Data.Insert env fs now s food).store
        (some (insertedRow env now (Data.Insert env fs now s food).id food)) ∧
    ((∃ c ∈ s.countries, c.ID = food.CountryID) →
      ∃ got, Data.GetOneById env noFaults (Data.Insert env fs now s food).store
          (Data.Insert env fs now s food).id = .ok got ∧
        got.ID = (Data.Insert env fs now s food).id ∧ got.KnownAs = food.KnownAs ∧
        got.Slug = env.Slugify food.KnownAs) := by
  obtain ⟨hid, hfoods, _, _, _⟩ :=
    Insert_frame env fs now s food (nextFault_of_Insert_ok env fs now s food hok)
  refine ⟨?_, ?_, ?_⟩
  · rw [GetOneBySlug_noFaults, GetOneById_noFaults, hfoods, hid,
      find?_slug_after_Insert env now s food hslug, find?_id_after_Insert env now s food hseq]
  · rw [GetOneById_noFaults, hfoods, hid, find?_id_after_Insert env now s food hseq]
  · intro hcountry
    obtain ⟨c, _, _, hget⟩ := read_after_Insert env fs now s food hseq hcountry hok
    exact ⟨_, hget, hid.symm, rfl, rfl⟩

/-- Witness of C6: Spicy Noodles inserted into the seeded store. -/
theorem Insert_slug_lookup_eq_id_lookup_witness :
    Data.GetOneBySlug demoEnv noFaults
        (Data.Insert demoEnv noFaults sampleClock seedStore
          (sampleFood 0 "Spicy Noodles" 1 "" [6])).store
        (demoEnv.Slugify "Spicy Noodles") =
      Data.GetOneById demoEnv noFaults
        (Data.Insert demoEnv noFaults sampleClock seedStore
          (sampleFood 0 "Spicy Noodles" 1 "" [6])).store
        (Data.Insert demoEnv noFaults sampleClock seedStore
          (sampleFood 0 "Spicy Noodles" 1 "" [6])).id :=
  (Insert_slug_lookup_eq_id_lookup demoEnv noFaults sampleClock seedStore
    (sampleFood 0 "Spicy Noodles" 1 "" [6]) (by decide) (by decide) (by decide)).1

/-- C6 fails as stated: a second Hamburger is inserted into the seeded store
with identity 2; the lookup by its slug returns the row with identity 1, the
lookup by the returned identity the row with identity 2. -/
theorem Insert_slug_lookup_eq_id_lookup_counterexample :
    (Data.Insert demoEnv noFaults sampleClock seedStore
        (sampleFood 0 "Hamburger" 1 "" [])).err = none ∧
      (Data.Insert demoEnv noFaults sampleClock seedStore
        (sampleFood 0 "Hamburger" 1 "" [])).id = 2 ∧
      Data.GetOneBySlug demoEnv noFaults
        (Data.Insert demoEnv noFaults sampleClock seedStore
          (sampleFood 0 "Hamburger" 1 "" [])).store (demoEnv.Slugify "Hamburger") =
        .ok { ID := 1, KnownAs := "Hamburger", CountryID := 1, MakeYear := 2022,
              Slug := "hamburger", Country := ⟨1, "John Smith", 20220305, 20220305⟩,
              Description := "Hamburger description",
              Tastes := [⟨3, "sour", 20220101, 20220101⟩],
              CreatedAt := 20220101, UpdatedAt := 20220101, TasteIDs := [3] } ∧
      Data.GetOneById demoEnv noFaults
        (Data.Insert demoEnv noFaults sampleClock seedStore
          (sampleFood 0 "Hamburger" 1 "" [])).store 2 =
        .ok { ID := 2, KnownAs := "Hamburger", CountryID := 1, MakeYear := 2022,
              Slug := "hamburger", Country := ⟨1, "John Smith", 20220305, 20220305⟩,
              Description := "", Tastes := [],
              CreatedAt := 20221104, UpdatedAt := 20221105, TasteIDs := [] } := by
  decide

/-! ## The single-row lookups (C4, C5) -/

theorem find?_of_unique {α : Type} (l : List α) (p : α → Bool) (a : α) (ha : a ∈ l)
    (hpa : p a = true) (huniq : ∀ b ∈ l, p b = true → b = a) : l.find? p = some a := by
  have hsome : (l.find? p).isSome := by
    rw [List.find?_isSome]
    exact ⟨a, ha, hpa⟩
  obtain ⟨b, hb⟩ := Option.isSome_iff_exists.mp hsome
  rw [hb, huniq b (List.mem_of_find?_eq_some hb) (List.find?_some hb)]

theorem lookupResult_error_iff (env : Env) (s : Store) (p : FoodRow → Bool)
    (hcountries : ∀ f ∈ s.foods, ∃ c ∈ s.countries, c.ID = f.country_id) :
    (∃ e, lookupResult env s (s.foods.find? p) = .error e) ↔ ¬ ∃ f ∈ s.foods, p f = true := by
  cases hfind : s.foods.find? p with
  | none =>
    rw [List.find?_eq_none] at hfind
    constructor
    · rintro _ ⟨f, hf, hpf⟩
      exact hfind f hf hpf
    · intro _
      exact ⟨.ErrNoRows, rfl⟩
  | some f =>
    have hmem := List.mem_of_find?_eq_some hfind
    have hpf := List.find?_some hfind
    obtain ⟨c, hc, hcid⟩ := hcountries f hmem
    have hsome : (s.countries.find? (fun c => decide (f.country_id = c.ID))).isSome := by
      rw [List.find?_isSome]
      exact ⟨c, hc, by simp [hcid]⟩
    obtain ⟨c0, hc0⟩ := Option.isSome_iff_exists.mp hsome
    constructor
    · rintro ⟨e, he⟩
      simp [lookupResult, hc0] at he
    · intro hno
      exact absurd ⟨f, hmem, hpf⟩ hno

/-- C4, as amended: in a store where the country id of every foods row names a
countries row, and without faults of the database, `GetOneBySlug` returns an
error exactly when no foods row has the slug, and `GetOneById` exactly when
no foods row has the id; the error is then `sql.ErrNoRows`. -/
theorem lookup_error_iff_no_row (env : Env) (s : Store)
    (hcountries : ∀ f ∈ s.foods, ∃ c ∈ s.countries, c.ID = f.country_id) (slug : String)
    (i : Int) :
    ((∃ e, Data.GetOneBySlug env noFaults s slug = .error e) ↔
        ¬ ∃ f ∈ s.foods, f.slug = slug) ∧
      ((∃ e, Data.GetOneById env noFaults s i = .error e) ↔ ¬ ∃ f ∈ s.foods, f.id = i) ∧
      ((¬ ∃ f ∈ s.foods, f.slug = slug) →
        Data.GetOneBySlug env noFaults s slug = .error .ErrNoRows) ∧
      ((¬ ∃ f ∈ s.foods, f.id = i) → Data.GetOneById env noFaults s i = .error .ErrNoRows) := by
  refine ⟨?_, ?_, ?_, ?_⟩
  · rw [GetOneBySlug_noFaults, lookupResult_error_iff env s _ hcountries]
    simp
  · rw [GetOneById_noFaults, lookupResult_error_iff env s _ hcountries]
    simp
  · intro hno
    have hnone : s.foods.find? (fun f => decide (f.slug = slug)) = none := by
      rw [List.find?_eq_none]
      intro f hf hp
      exact hno ⟨f, hf, by simpa using hp⟩
    rw [GetOneBySlug_noFaults, hnone]
    rfl
  · intro hno
    have hnone : s.foods.find? (fun f => decide (f.id = i)) = none := by
      rw [List.find?_eq_none]
      intro f hf hp
      exact hno ⟨f, hf, by simpa using hp⟩
    rw [GetOneById_noFaults, hnone]
    rfl

/-- Witness of C4: the lookups of the tests in the seeded store, where the slug
`bad-slug` and the id 2 name no food. -/
theorem lookup_error_iff_no_row_witness :
    ((∃ e, Data.GetOneBySlug demoEnv noFaults seedStore "bad-slug" = .error e) ↔
        ¬ ∃ f ∈ seedStore.foods, f.slug = "bad-slug") ∧
      ((∃ e, Data.GetOneById demoEnv noFaults seedStore 2 = .error e) ↔
        ¬ ∃ f ∈ seedStore.foods, f.id = 2) ∧
      ((¬ ∃ f ∈ seedStore.foods, f.slug = "bad-slug") →
        Data.GetOneBySlug demoEnv noFaults seedStore "bad-slug" = .error .ErrNoRows) ∧
      ((¬ ∃ f ∈ seedStore.foods, f.id = 2) →
        Data.GetOneById demoEnv noFaults seedStore 2 = .error .ErrNoRows) :=
  lookup_error_iff_no_row demoEnv seedStore (by decide) "bad-slug" 2

/-- C4 fails as stated: Ramen, inserted into the seeded store with the country
id 0 that names no country, has a foods row with slug `ramen` and identity 2,
and both lookups return the error of `Scan`. -/
theorem lookup_error_iff_no_row_counterexample :
    (∃ f ∈ (Data.Insert demoEnv noFaults sampleClock seedStore
        (sampleFood 0 "Ramen" 0 "" [])).store.foods, f.slug = "ramen" ∧ f.id = 2) ∧
      Data.GetOneBySlug demoEnv noFaults
        (Data.Insert demoEnv noFaults sampleClock seedStore
          (sampleFood 0 "Ramen" 0 "" [])).store "ramen" = .error .scanNull ∧
      Data.GetOneById demoEnv noFaults
        (Data.Insert demoEnv noFaults sampleClock seedStore
          (sampleFood 0 "Ramen" 0 "" [])).store 2 = .error .scanNull := by
  decide

/-- C5, as amended: when identities are unique in `foods` and in `countries`
and the country id of the foods row with id `i` names a countries row,
`GetOneById i` returns the food with identity `i`, the columns of that row,
that country, and as tastes the rows of `tastes` whose id is joined to `i` in
`foods_tastes`, each once per stored row, in non-decreasing order of taste
under a collation that is a total preorder; `TasteIDs` are the ids of those
tastes. -/
theorem GetOneById_returns_row (env : Env) (s : Store) (i : Int) (r : FoodRow)
    (hr : r ∈ s.foods) (hid : r.id = i) (hfoods : (s.foods.map (fun f => f.id)).Nodup)
    (c : Country) (hc : c ∈ s.countries) (hcid : c.ID = r.country_id)
    (hcs : (s.countries.map (fun c => c.ID)).Nodup) :
    ∃ tastes : List Taste,
      Data.GetOneById env noFaults s i =
        .ok { ID := i, KnownAs := r.known_as, CountryID := r.country_id,
              MakeYear := r.make_year, Slug := r.slug, Country := c,
              Description := r.description, Tastes := tastes,
              CreatedAt := r.created_at, UpdatedAt := r.updated_at,
              TasteIDs := tastes.map (fun t => t.ID) } ∧
      (∀ t, t ∈ tastes ↔
        t ∈ s.tastes ∧ ∃ j ∈ s.foods_tastes, j.food_id = i ∧ j.taste_id = t.ID) ∧
      tastes.Perm (s.tastes.filter (fun t =>
        t.ID ∈ (s.foods_tastes.filter (fun j => j.food_id = i)).map (fun j => j.taste_id))) ∧
      (env.Collation → tastes.Sorted (fun a b => env.collate a.Taste b.Taste = true)) := by
  have hfind : s.foods.find? (fun f => decide (f.id = i)) = some r := by
    apply find?_of_unique _ _ _ hr (by simp [hid])
    intro b hb hpb
    have hbid : b.id = i := by simpa using hpb
    exact List.inj_on_of_nodup_map hfoods hb hr (by rw [hbid, hid])
  have hcfind : s.countries.find? (fun x => decide (r.country_id = x.ID)) = some c := by
    apply find?_of_unique _ _ _ hc (by simp [hcid])
    intro b hb hpb
    have hbid : r.country_id = b.ID := by simpa using hpb
    exact List.inj_on_of_nodup_map hcs hb hc (by rw [← hbid, hcid])
  refine ⟨tasteQuery env s i, ?_, fun t => mem_tasteQuery env s i t,
    (tasteQuery_rows env s i).1, (tasteQuery_rows env s i).2⟩
  rw [GetOneById_noFaults, hfind]
  simp only [lookupResult, hcfind, foodOf, hid]

/-- Witness of C5: the lookup of the tests, id 1 in the seeded store, returns
Hamburger; and Hamburger with the tastes 6, 2 and 5 is read back with spicy,
sweet and bitter in the order bitter, spicy, sweet. -/
theorem GetOneById_returns_row_witness :
    (∃ tastes : List Taste,
      Data.GetOneById demoEnv noFaults seedStore 1 =
        .ok { ID := 1, KnownAs := "Hamburger", CountryID := 1, MakeYear := 2022,
              Slug := "hamburger", Country := ⟨1, "John Smith", 20220305, 20220305⟩,
              Description := "Hamburger description", Tastes := tastes,
              CreatedAt := 20220101, UpdatedAt := 20220101,
              TasteIDs := tastes.map (fun t => t.ID) } ∧
      (∀ t, t ∈ tastes ↔
        t ∈ seedStore.tastes ∧
          ∃ j ∈ seedStore.foods_tastes, j.food_id = 1 ∧ j.taste_id = t.ID) ∧
      tastes.Perm (seedStore.tastes.filter (fun t =>
        t.ID ∈ (seedStore.foods_tastes.filter (fun j => j.food_id = 1)).map
          (fun j => j.taste_id))) ∧
      (demoEnv.Collation →
        tastes.Sorted (fun a b => demoEnv.collate a.Taste b.Taste = true))) ∧
    Data.GetOneById demoEnv noFaults seedStore 1 =
      .ok { ID := 1, KnownAs := "Hamburger", CountryID := 1, MakeYear := 2022,
            Slug := "hamburger", Country := ⟨1, "John Smith", 20220305, 20220305⟩,
            Description := "Hamburger description",
            Tastes := [⟨3, "sour", 20220101, 20220101⟩],
            CreatedAt := 20220101, UpdatedAt := 20220101, TasteIDs := [3] } ∧
    (Data.GetOneById demoEnv noFaults
        (Data.Update demoEnv noFaults sampleClock seedStore
          (sampleFood 1 "Hamburger" 1 "" [6, 2, 5])).1 1).toOption.map (fun f => f.Tastes) =
      some [⟨5, "bitter", 20220101, 20220101⟩, ⟨6, "spicy", 20220101, 20220101⟩,
            ⟨2, "sweet", 20220101, 20220101⟩] :=
  ⟨GetOneById_returns_row demoEnv seedStore 1
    ⟨1, "Hamburger", 1, 2022, 20220101, 20220101, "hamburger", "Hamburger description"⟩
    (by decide) rfl (by decide) ⟨1, "John Smith", 20220305, 20220305⟩ (by decide) rfl
    (by decide), by decide, by decide⟩

/-- C5 fails as stated: after the seeded Hamburger is updated with the country
id 0, which names no country, its foods row with id 1 exists and `GetOneById 1`
returns the error of `Scan` and no food. -/
theorem GetOneById_returns_row_counterexample :
    (Data.Update demoEnv noFaults sampleClock seedStore
        (sampleFood 1 "Hamburger" 0 "" [])).2 = none ∧
      (∃ f ∈ (Data.Update demoEnv noFaults sampleClock seedStore
        (sampleFood 1 "Hamburger" 0 "" [])).1.foods, f.id = 1) ∧
      Data.GetOneById demoEnv noFaults
        (Data.Update demoEnv noFaults sampleClock seedStore
          (sampleFood 1 "Hamburger" 0 "" [])).1 1 = .error .scanNull := by
  decide

/-! ## GetAll (C7) -/

theorem filter_key_of_nodup {α : Type} (key : α → Int) (l : List α)
    (hnodup : (l.map key).Nodup) (a : α) (ha : a ∈ l) :
    l.filter (fun b => decide (key a = key b)) = [a] := by
  induction l with
  | nil => cases ha
  | cons b l ih =>
    rw [List.map_cons, List.nodup_cons] at hnodup
    rcases List.mem_cons.mp ha with rfl | hmem
    · have hrest : l.filter (fun b => decide (key a = key b)) = [] := by
        rw [List.filter_eq_nil_iff]
        intro x hx hkx
        exact hnodup.1 (by
          rw [of_decide_eq_true hkx]
          exact List.mem_map_of_mem key hx)
      simp [List.filter_cons, hrest]
    · have hne : key a ≠ key b := by
        intro h
        exact hnodup.1 (by
          rw [← h]
          exact List.mem_map_of_mem key hmem)
      simp [List.filter_cons, hne, ih hnodup.2 hmem]

theorem joinCountry_single (s : Store) (hcs : (s.countries.map (fun c => c.ID)).Nodup)
    (f : FoodRow) (h : ∃ c ∈ s.countries, c.ID = f.country_id) :
    ∃ c ∈ s.countries, c.ID = f.country_id ∧ joinCountry s f = [(f, some c)] := by
  obtain ⟨c, hc, hcid⟩ := h
  refine ⟨c, hc, hcid, ?_⟩
  have hfilter := filter_key_of_nodup (fun c : Country => c.ID) s.countries hcs c hc
  unfold joinCountry
  simp only [hcid] at hfilter
  rw [hfilter]
  rfl

/-- With every country present once, the left join has one row per foods row. -/
theorem leftJoin_rows (s : Store) (hcs : (s.countries.map (fun c => c.ID)).Nodup)
    (fl : List FoodRow) (h : ∀ f ∈ fl, ∃ c ∈ s.countries, c.ID = f.country_id) :
    ∃ rows : List (FoodRow × Country),
      fl.flatMap (joinCountry s) = rows.map (fun p => (p.1, some p.2)) ∧
      rows.map Prod.fst = fl ∧
      ∀ p ∈ rows, p.2 ∈ s.countries ∧ p.2.ID = p.1.country_id := by
  induction fl with
  | nil => exact ⟨[], rfl, rfl, by simp⟩
  | cons f fl ih =>
    obtain ⟨rows, hrows, hfst, hall⟩ := ih (fun g hg => h g (List.mem_cons_of_mem _ hg))
    obtain ⟨c, hc, hcid, hjoin⟩ := joinCountry_single s hcs f (h f (List.mem_cons_self _ _))
    refine ⟨(f, c) :: rows, ?_, ?_, ?_⟩
    · rw [List.flatMap_cons, hjoin, hrows]
      rfl
    · simp [hfst]
    · intro p hp
      rcases List.mem_cons.mp hp with rfl | hp
      · exact ⟨hc, hcid⟩
      · exact hall p hp

theorem exists_lift_rows (l : List (FoodRow × Option Country))
    (h : ∀ r ∈ l, ∃ c, r.2 = some c) :
    ∃ rows : List (FoodRow × Country), l = rows.map (fun p => (p.1, some p.2)) := by
  induction l with
  | nil => exact ⟨[], rfl⟩
  | cons r l ih =>
    obtain ⟨rows, hrows⟩ := ih (fun x hx => h x (List.mem_cons_of_mem _ hx))
    obtain ⟨c, hc⟩ := h r (List.mem_cons_self _ _)
    refine ⟨(r.1, c) :: rows, ?_⟩
    obtain ⟨f, oc⟩ := r
    simp only at hc
    subst hc
    simp [hrows]

theorem scanAll_noFaults (env : Env) (s : Store) (rows : List (FoodRow × Country)) :
    Data.scanAll env s [] (rows.map (fun p => (p.1, some p.2))) =
      .ok (rows.map (fun p => foodOf env s p.1 p.2)) := by
  induction rows with
  | nil => rfl
  | cons p rows ih =>
    simp only [List.map_cons, Data.scanAll, scanFood, Data.tastesForFood, nextFault,
      List.tail_nil, ih]
    rfl

/-- C7, as amended: under a collation that is a total preorder, when the
country id of every foods row names a countries row and identities are unique
in `countries`, `GetAll` returns one food per foods row, in non-decreasing order
of `KnownAs`; each entry has the columns of its own row, the country of that
row, and as tastes the rows of `tastes` whose id is joined to the id of the
row in `foods_tastes`, ordered by taste, with their ids as `TasteIDs`. -/
theorem GetAll_returns_every_row (env : Env) (s : Store) (hcoll : env.Collation)
    (hcountries : ∀ f ∈ s.foods, ∃ c ∈ s.countries, c.ID = f.country_id)
    (hcs : (s.countries.map (fun c => c.ID)).Nodup) :
    ∃ rows : List (FoodRow × Country),
      Data.GetAll env noFaults s = .ok (rows.map (fun p => foodOf env s p.1 p.2)) ∧
      (rows.map Prod.fst).Perm s.foods ∧
      (rows.map (fun p => foodOf env s p.1 p.2)).length = s.foods.length ∧
      (∀ p ∈ rows, p.2 ∈ s.countries ∧ p.2.ID = p.1.country_id) ∧
      (rows.map (fun p => foodOf env s p.1 p.2)).Sorted
        (fun a b => env.collate a.KnownAs b.KnownAs = true) ∧
      (∀ p ∈ rows,
        (foodOf env s p.1 p.2).ID = p.1.id ∧
        (foodOf env s p.1 p.2).KnownAs = p.1.known_as ∧
        (foodOf env s p.1 p.2).CountryID = p.1.country_id ∧
        (foodOf env s p.1 p.2).MakeYear = p.1.make_year ∧
        (foodOf env s p.1 p.2).Slug = p.1.slug ∧
        (foodOf env s p.1 p.2).Description = p.1.description ∧
        (foodOf env s p.1 p.2).Country = p.2 ∧
        (foodOf env s p.1 p.2).TasteIDs =
          (foodOf env s p.1 p.2).Tastes.map (fun t => t.ID) ∧
        (∀ t, t ∈ (foodOf env s p.1 p.2).Tastes ↔
          t ∈ s.tastes ∧ ∃ j ∈ s.foods_tastes, j.food_id = p.1.id ∧ j.taste_id = t.ID) ∧
        (foodOf env s p.1 p.2).Tastes.Perm (s.tastes.filter (fun t =>
          t.ID ∈ (s.foods_tastes.filter (fun j => j.food_id = p.1.id)).map
            (fun j => j.taste_id))) ∧
        (foodOf env s p.1 p.2).Tastes.Sorted
          (fun a b => env.collate a.Taste b.Taste = true)) := by
  obtain ⟨rows0, hjoin, hfst0, hall0⟩ := leftJoin_rows s hcs s.foods hcountries
  have hperm := orderBy_perm env (fun r : FoodRow × Option Country => r.1.known_as)
    (leftJoinCountries s)
  have hsome : ∀ r ∈ orderBy env (fun r : FoodRow × Option Country => r.1.known_as)
      (leftJoinCountries s), ∃ c, r.2 = some c := by
    intro r hr
    rw [mem_orderBy, leftJoinCountries, hjoin] at hr
    obtain ⟨p, _, rfl⟩ := List.mem_map.mp hr
    exact ⟨p.2, rfl⟩
  obtain ⟨rows, hrows⟩ := exists_lift_rows _ hsome
  have hperm2 : (rows.map Prod.fst).Perm s.foods := by
    have h1 := hperm.map Prod.fst
    rw [hrows, leftJoinCountries, hjoin] at h1
    simp only [List.map_map] at h1
    have h2 : (Prod.fst ∘ fun p : FoodRow × Country => (p.1, some p.2)) = Prod.fst := rfl
    rw [h2, hfst0] at h1
    exact h1
  have hsorted := orderBy_sorted env hcoll (fun r : FoodRow × Option Country => r.1.known_as)
    (leftJoinCountries s)
  rw [hrows] at hsorted
  refine ⟨rows, ?_, hperm2, ?_, ?_, ?_, ?_⟩
  · unfold Data.GetAll
    simp only [noFaults, nextFault, List.tail_nil]
    rw [hrows]
    exact scanAll_noFaults env s rows
  · rw [List.length_map, ← hperm2.length_eq, List.length_map]
  · intro p hp
    have hmem : (p.1, some p.2) ∈ leftJoinCountries s := by
      rw [← mem_orderBy env (fun r : FoodRow × Option Country => r.1.known_as), hrows]
      exact List.mem_map_of_mem _ hp
    rw [leftJoinCountries, hjoin] at hmem
    obtain ⟨q, hq, hqe⟩ := List.mem_map.mp hmem
    have h1 : q.1 = p.1 := (Prod.mk.inj hqe).1
    have h3 : q.2 = p.2 := Option.some.inj (Prod.mk.inj hqe).2
    rw [← h1, ← h3]
    exact hall0 q hq
  · unfold List.Sorted at hsorted ⊢
    rw [List.pairwise_map] at hsorted ⊢
    exact hsorted
  · intro p _
    exact ⟨rfl, rfl, rfl, rfl, rfl, rfl, rfl, rfl, fun t => mem_tasteQuery env s p.1.id t,
      (tasteQuery_rows env s p.1.id).1, (tasteQuery_rows env s p.1.id).2 hcoll⟩

theorem codepointLe_total (a b : List Char) : codepointLe a b = true ∨ codepointLe b a = true := by
  induction a generalizing b with
  | nil => exact Or.inl rfl
  | cons x a ih =>
    cases b with
    | nil => exact Or.inr rfl
    | cons y b =>
      simp only [codepointLe, Bool.or_eq_true, Bool.and_eq_true, decide_eq_true_eq]
      rcases Nat.lt_trichotomy x.toNat y.toNat with h | h | h
      · exact Or.inl (Or.inl h)
      · rcases ih b with h2 | h2
        · exact Or.inl (Or.inr ⟨h, h2⟩)
        · exact Or.inr (Or.inr ⟨h.symm, h2⟩)
      · exact Or.inr (Or.inl h)

theorem codepointLe_trans (a b c : List Char) (hab : codepointLe a b = true)
    (hbc : codepointLe b c = true) : codepointLe a c = true := by
  induction a generalizing b c with
  | nil => rfl
  | cons x a ih =>
    cases b with
    | nil => simp [codepointLe] at hab
    | cons y b =>
      cases c with
      | nil => simp [codepointLe] at hbc
      | cons z c =>
        simp only [codepointLe, Bool.or_eq_true, Bool.and_eq_true, decide_eq_true_eq] at hab hbc ⊢
        rcases hab with h1 | ⟨h1, h1r⟩
        · rcases hbc with h2 | ⟨h2, _⟩
          · exact Or.inl (by omega)
          · exact Or.inl (by omega)
        · rcases hbc with h2 | ⟨h2, h2r⟩
          · exact Or.inl (by omega)
          · exact Or.inr ⟨by omega, ih b c h1r h2r⟩

theorem demoEnv_collation : demoEnv.Collation :=
  ⟨fun a b => codepointLe_total a.data b.data,
   fun a b c => codepointLe_trans a.data b.data c.data⟩

/-- Witness of C7: the seeded store, whose one food `GetAll` returns with its
taste sour; and after Apple Pie is inserted with the tastes 6 and 2, `GetAll`
returns Apple Pie with spicy and sweet before Hamburger with sour. -/
theorem GetAll_returns_every_row_witness :
    (∃ rows : List (FoodRow × Country),
      Data.GetAll demoEnv noFaults seedStore =
        .ok (rows.map (fun p => foodOf demoEnv seedStore p.1 p.2)) ∧
      (rows.map Prod.fst).Perm seedStore.foods ∧
      (rows.map (fun p => foodOf demoEnv seedStore p.1 p.2)).length = seedStore.foods.length ∧
      (∀ p ∈ rows, p.2 ∈ seedStore.countries ∧ p.2.ID = p.1.country_id) ∧
      (rows.map (fun p => foodOf demoEnv seedStore p.1 p.2)).Sorted
        (fun a b => demoEnv.collate a.KnownAs b.KnownAs = true) ∧
      (∀ p ∈ rows,
        (foodOf demoEnv seedStore p.1 p.2).ID = p.1.id ∧
        (foodOf demoEnv seedStore p.1 p.2).KnownAs = p.1.known_as ∧
        (foodOf demoEnv seedStore p.1 p.2).CountryID = p.1.country_id ∧
        (foodOf demoEnv seedStore p.1 p.2).MakeYear = p.1.make_year ∧
        (foodOf demoEnv seedStore p.1 p.2).Slug = p.1.slug ∧
        (foodOf demoEnv seedStore p.1 p.2).Description = p.1.description ∧
        (foodOf demoEnv seedStore p.1 p.2).Country = p.2 ∧
        (foodOf demoEnv seedStore p.1 p.2).TasteIDs =
          (foodOf demoEnv seedStore p.1 p.2).Tastes.map (fun t => t.ID) ∧
        (∀ t, t ∈ (foodOf demoEnv seedStore p.1 p.2).Tastes ↔
          t ∈ seedStore.tastes ∧
            ∃ j ∈ seedStore.foods_tastes, j.food_id = p.1.id ∧ j.taste_id = t.ID) ∧
        (foodOf demoEnv seedStore p.1 p.2).Tastes.Perm (seedStore.tastes.filter (fun t =>
          t.ID ∈ (seedStore.foods_tastes.filter (fun j => j.food_id = p.1.id)).map
            (fun j => j.taste_id))) ∧
        (foodOf demoEnv seedStore p.1 p.2).Tastes.Sorted
          (fun a b => demoEnv.collate a.Taste b.Taste = true))) ∧
    Data.GetAll demoEnv noFaults seedStore =
      .ok [{ ID := 1, KnownAs := "Hamburger", CountryID := 1, MakeYear := 2022,
             Slug := "hamburger", Country := ⟨1, "John Smith", 20220305, 20220305⟩,
             Description := "Hamburger description",
             Tastes := [⟨3, "sour", 20220101, 20220101⟩],
             CreatedAt := 20220101, UpdatedAt := 20220101, TasteIDs := [3] }] ∧
    (Data.GetAll demoEnv noFaults
        (Data.Insert demoEnv noFaults sampleClock seedStore
          (sampleFood 0 "Apple Pie" 1 "" [6, 2])).store).toOption.map
        (fun foods => foods.map (fun f => (f.ID, f.KnownAs, f.TasteIDs))) =
      some [(2, "Apple Pie", [6, 2]), (1, "Hamburger", [3])] :=
  ⟨GetAll_returns_every_row demoEnv seedStore demoEnv_collation (by decide) (by decide),
    by decide, by decide⟩

/-- C7 fails as stated: after Ramen is inserted into the seeded store with the
country id 0, which names no country, `foods` has two rows and `GetAll` returns
the error of `Scan` and no food. -/
theorem GetAll_returns_every_row_counterexample :
    (Data.Insert demoEnv noFaults sampleClock seedStore
        (sampleFood 0 "Ramen" 0 "" [6])).err = none ∧
      (Data.Insert demoEnv noFaults sampleClock seedStore
        (sampleFood 0 "Ramen" 0 "" [6])).store.foods.length = 2 ∧
      Data.GetAll demoEnv noFaults
        (Data.Insert demoEnv noFaults sampleClock seedStore
          (sampleFood 0 "Ramen" 0 "" [6])).store = .error .scanNull := by
  decide

/-! ## The stored slug (C8) and the errors of the writes (C9) -/

theorem mem_updateFoods_slug (s : Store) (knownAs : String) (countryID makeYear : Int)
    (slug description : String) (updated : Time) (id : Int) :
    ∀ r ∈ (Data.updateFoods s knownAs countryID makeYear slug description updated id).foods,
      r.id = id → r.slug = slug := by
  intro r hr hid
  unfold Data.updateFoods at hr
  obtain ⟨r0, _, rfl⟩ := List.mem_map.mp hr
  by_cases h : r0.id = id
  · simp [h]
  · rw [if_neg h] at hid
    exact absurd hid h

/-- C8: neither `Insert` nor `Update` reads the `Slug` field of the food value;
after a successful `Insert` the row with the returned identity exists and
every row with that identity has the slug derived from `KnownAs`, and after a
successful `Update` every row with the id of the food has it, such a row
being there whenever the food had one. -/
theorem stored_slug_is_Slugify (env : Env) (fs : Faults) (now : Nat → Time) (s : Store)
    (f : Food) (slug : String) :
    Data.Insert env fs now s { f with Slug := slug } = Data.Insert env fs now s f ∧
    Data.Update env fs now s { f with Slug := slug } = Data.Update env fs now s f ∧
    ((∀ r ∈ s.foods, r.id < s.foods_id_seq) → (Data.Insert env fs now s f).err = none →
      (∃ r ∈ (Data.Insert env fs now s f).store.foods,
        r.id = (Data.Insert env fs now s f).id) ∧
      ∀ r ∈ (Data.Insert env fs now s f).store.foods,
        r.id = (Data.Insert env fs now s f).id → r.slug = env.Slugify f.KnownAs) ∧
    ((Data.Update env fs now s f).2 = none →
      ((∃ r ∈ s.foods, r.id = f.ID) →
        ∃ r ∈ (Data.Update env fs now s f).1.foods, r.id = f.ID) ∧
      ∀ r ∈ (Data.Update env fs now s f).1.foods,
        r.id = f.ID → r.slug = env.Slugify f.KnownAs) := by
  refine ⟨rfl, rfl, ?_, ?_⟩
  · intro hseq hok
    obtain ⟨hid, hfoods, _, _, _⟩ :=
      Insert_frame env fs now s f (nextFault_of_Insert_ok env fs now s f hok)
    rw [hid, hfoods]
    constructor
    · exact ⟨insertedRow env now s.foods_id_seq f, by simp, rfl⟩
    · intro r hr hrid
      rcases List.mem_append.mp hr with h | h
      · have := hseq r h
        omega
      · rw [List.mem_singleton.mp h]
        rfl
  · intro hok
    obtain ⟨hfoods, _, _⟩ := Update_ok_frame env fs now s f hok
    rw [hfoods]
    constructor
    · rintro ⟨r, hr, hid⟩
      obtain ⟨r0, _, hid0, hfind⟩ := find?_updateFoods s f.KnownAs f.CountryID f.MakeYear
        (env.Slugify f.KnownAs) f.Description (now 0) f.ID r hr hid
      exact ⟨_, List.mem_of_find?_eq_some hfind, hid0⟩
    · exact mem_updateFoods_slug s _ _ _ _ _ _ _

/-- Witness of C8: a food value with id 1 and a slug of its own, inserted into
and updated in the seeded store. -/
theorem stored_slug_is_Slugify_witness :
    ((∃ r ∈ (Data.Insert demoEnv noFaults sampleClock seedStore
          (sampleFood 1 "Spicy Noodles" 1 "my-own-slug" [6])).store.foods,
        r.id = (Data.Insert demoEnv noFaults sampleClock seedStore
          (sampleFood 1 "Spicy Noodles" 1 "my-own-slug" [6])).id) ∧
      ∀ r ∈ (Data.Insert demoEnv noFaults sampleClock seedStore
          (sampleFood 1 "Spicy Noodles" 1 "my-own-slug" [6])).store.foods,
        r.id = (Data.Insert demoEnv noFaults sampleClock seedStore
          (sampleFood 1 "Spicy Noodles" 1 "my-own-slug" [6])).id →
        r.slug = demoEnv.Slugify "Spicy Noodles") ∧
    (((∃ r ∈ seedStore.foods, r.id = 1) →
        ∃ r ∈ (Data.Update demoEnv noFaults sampleClock seedStore
          (sampleFood 1 "Spicy Noodles" 1 "my-own-slug" [6])).1.foods, r.id = 1) ∧
      ∀ r ∈ (Data.Update demoEnv noFaults sampleClock seedStore
          (sampleFood 1 "Spicy Noodles" 1 "my-own-slug" [6])).1.foods,
        r.id = 1 → r.slug = demoEnv.Slugify "Spicy Noodles") :=
  ⟨(stored_slug_is_Slugify demoEnv noFaults sampleClock seedStore
      (sampleFood 1 "Spicy Noodles" 1 "my-own-slug" [6]) "other").2.2.1 (by decide) (by decide),
   (stored_slug_is_Slugify demoEnv noFaults sampleClock seedStore
      (sampleFood 1 "Spicy Noodles" 1 "my-own-slug" [6]) "other").2.2.2 (by decide)⟩

/-- C9: when the write of the foods row faults, `Insert` returns 0 and `Update`
returns, with the error of the driver as it is, and the store is the one before
the call; when that write runs and the delete or one of the inserts of join
rows faults with message `m`, both return an error whose message is
`food updated, but tastes not: ` followed by `m`, the foods row is written,
and `Insert` returns the generated identity, which is not 0 when the identity
sequence is positive. -/
theorem association_failure_reported (env : Env) (fs : Faults) (now : Nat → Time) (s : Store)
    (f : Food) (m : String) :
    (nextFault fs = some m → Data.Insert env fs now s f = ⟨s, 0, some (.driver m)⟩) ∧
    (nextFault fs = some m → Data.Update env fs now s f = (s, some (.driver m))) ∧
    (nextFault fs = none → f.TasteIDs ≠ [] →
      firstFault (f.TasteIDs.length + 1) fs.tail = some m →
      (∃ e, (Data.Insert env fs now s f).err = some e ∧
        e.Error = "food updated, but tastes not: " ++ m) ∧
      (Data.Insert env fs now s f).id = s.foods_id_seq ∧
      (0 < s.foods_id_seq → (Data.Insert env fs now s f).id ≠ 0) ∧
      (Data.Insert env fs now s f).store.foods =
        s.foods ++ [insertedRow env now s.foods_id_seq f]) ∧
    (nextFault fs = none → f.TasteIDs ≠ [] →
      firstFault (f.TasteIDs.length + 1) fs.tail = some m →
      (∃ e, (Data.Update env fs now s f).2 = some e ∧
        e.Error = "food updated, but tastes not: " ++ m) ∧
      (Data.Update env fs now s f).1.foods =
        (Data.updateFoods s f.KnownAs f.CountryID f.MakeYear (env.Slugify f.KnownAs)
          f.Description (now 0) f.ID).foods) := by
  refine ⟨?_, ?_, ?_, ?_⟩
  · intro h
    unfold Data.Insert
    rw [h]
  · intro h
    unfold Data.Update
    rw [h]
  · intro h hne hff
    obtain ⟨hid, hfoods, _, _, _⟩ := Insert_frame env fs now s f h
    refine ⟨⟨.errorf (Data.tastesNotSaved ++ m), ?_, rfl⟩, hid, ?_, hfoods⟩
    · rw [Insert_err, h]
      simp [length_pos_of_ne_nil hne, hff]
    · intro hpos
      rw [hid]
      omega
  · intro h hne hff
    refine ⟨⟨.errorf (Data.tastesNotSaved ++ m), ?_, rfl⟩, ?_⟩
    · rw [Update_err, h]
      simp [length_pos_of_ne_nil hne, hff]
    · unfold Data.Update
      rw [h]
      simp only [length_pos_of_ne_nil hne, if_true]
      cases nextFault fs.tail with
      | some m2 => rfl
      | none => exact (addTastes_frame _ _ _ _ _ _).1

/-- Witness of C9: Pho with the tastes 3 and 4, written to the seeded store once
with a timeout of the first database call and once with a timeout of the third,
the insert of the first join row. -/
theorem association_failure_reported_witness :
    (Data.Insert demoEnv [some "timeout"] sampleClock seedStore
        (sampleFood 1 "Pho" 1 "" [3, 4]) = ⟨seedStore, 0, some (.driver "timeout")⟩ ∧
      Data.Update demoEnv [some "timeout"] sampleClock seedStore
        (sampleFood 1 "Pho" 1 "" [3, 4]) = (seedStore, some (.driver "timeout"))) ∧
    ((∃ e, (Data.Insert demoEnv [none, none, some "timeout"] sampleClock seedStore
          (sampleFood 1 "Pho" 1 "" [3, 4])).err = some e ∧
        e.Error = "food updated, but tastes not: " ++ "timeout") ∧
      (Data.Insert demoEnv [none, none, some "timeout"] sampleClock seedStore
        (sampleFood 1 "Pho" 1 "" [3, 4])).id = seedStore.foods_id_seq ∧
      (0 < seedStore.foods_id_seq →
        (Data.Insert demoEnv [none, none, some "timeout"] sampleClock seedStore
          (sampleFood 1 "Pho" 1 "" [3, 4])).id ≠ 0) ∧
      (Data.Insert demoEnv [none, none, some "timeout"] sampleClock seedStore
        (sampleFood 1 "Pho" 1 "" [3, 4])).store.foods =
        seedStore.foods ++ [insertedRow demoEnv sampleClock seedStore.foods_id_seq
          (sampleFood 1 "Pho" 1 "" [3, 4])]) ∧
    ((∃ e, (Data.Update demoEnv [none, none, some "timeout"] sampleClock seedStore
          (sampleFood 1 "Pho" 1 "" [3, 4])).2 = some e ∧
        e.Error = "food updated, but tastes not: " ++ "timeout") ∧
      (Data.Update demoEnv [none, none, some "timeout"] sampleClock seedStore
        (sampleFood 1 "Pho" 1 "" [3, 4])).1.foods =
        (Data.updateFoods seedStore "Pho" 1 2022 (demoEnv.Slugify "Pho") "" (sampleClock 0)
          1).foods) :=
  ⟨⟨(association_failure_reported demoEnv [some "timeout"] sampleClock seedStore
        (sampleFood 1 "Pho" 1 "" [3, 4]) "timeout").1 (by decide),
    (association_failure_reported demoEnv [some "timeout"] sampleClock seedStore
        (sampleFood 1 "Pho" 1 "" [3, 4]) "timeout").2.1 (by decide)⟩,
   (association_failure_reported demoEnv [none, none, some "timeout"] sampleClock seedStore
      (sampleFood 1 "Pho" 1 "" [3, 4]) "timeout").2.2.1 (by decide) (by decide) (by decide),
   (association_failure_reported demoEnv [none, none, some "timeout"] sampleClock seedStore
      (sampleFood 1 "Pho" 1 "" [3, 4]) "timeout").2.2.2 (by decide) (by decide) (by decide)⟩

/-! ## Login: the responses to a failed authentication (C10) -/

/-- C10, as amended: for a request whose body was read, a login that fails on
the credentials, the email being unknown or the password not confirmed, is
answered with the one error `invalid username/password`, so two such runs get
the same responses; a login that fails because the user is inactive is
answered with the error `user is not active`. -/
theorem Login_failure_responses (m1 m2 : Api.Models) (c1 c2 : Api.credentials) :
    (badCredentials m1 c1 = true →
      Api.responses (Api.Login m1 none c1) =
        [.errorJSON (.errorf "invalid username/password")]) ∧
    (badCredentials m1 c1 = true → badCredentials m2 c2 = true →
      Api.responses (Api.Login m1 none c1) = Api.responses (Api.Login m2 none c2)) ∧
    (inactiveUser m1 c1 = true →
      Api.responses (Api.Login m1 none c1) = [.errorJSON (.errorf "user is not active")]) := by
  have hbad : ∀ (m : Api.Models) (c : Api.credentials), badCredentials m c = true →
      Api.responses (Api.Login m none c) =
        [.errorJSON (.errorf "invalid username/password")] := by
    intro m c h
    unfold badCredentials at h
    unfold Api.Login Api.authenticate
    cases hg : m.GetByEmail c.UserName with
    | error e => simp [Api.responses]
    | ok user =>
      simp only [hg] at h
      cases hp : m.PasswordMatches user c.Password with
      | error e => simp [Api.responses, hp]
      | ok b =>
        cases b with
        | false => simp [Api.responses, hp]
        | true => simp [hp] at h
  refine ⟨hbad m1 c1, fun h1 h2 => by rw [hbad m1 c1 h1, hbad m2 c2 h2], ?_⟩
  intro h
  unfold inactiveUser at h
  unfold Api.Login Api.authenticate
  cases hg : m1.GetByEmail c1.UserName with
  | error e => simp [hg] at h
  | ok user =>
    simp only [hg] at h
    cases hp : m1.PasswordMatches user c1.Password with
    | error e => simp [hp] at h
    | ok b =>
      cases b with
      | false => simp [hp] at h
      | true =>
        simp only [hp, decide_eq_true_eq] at h
        simp [Api.responses, h, hp]

/-- Witness of C10: an unknown email and a wrong password for a known one get the
same responses; the inactive user with the right password gets the other error. -/
theorem Login_failure_responses_witness :
    Api.responses (Api.Login (sampleModels 1) none ⟨"nobody@example.com", "secret"⟩) =
        Api.responses (Api.Login (sampleModels 1) none ⟨"admin@example.com", "guess"⟩) ∧
      Api.responses (Api.Login (sampleModels 0) none ⟨"admin@example.com", "secret"⟩) =
        [.errorJSON (.errorf "user is not active")] :=
  ⟨(Login_failure_responses (sampleModels 1) (sampleModels 1) ⟨"nobody@example.com", "secret"⟩
      ⟨"admin@example.com", "guess"⟩).2.1 (by decide) (by decide),
   (Login_failure_responses (sampleModels 0) (sampleModels 0) ⟨"admin@example.com", "secret"⟩
      ⟨"admin@example.com", "secret"⟩).2.2 (by decide)⟩

/-- C10 fails as stated: the login of an unknown email and the login of the
inactive user with the right password both fail, with different messages. -/
theorem Login_failure_responses_counterexample :
    Api.responses (Api.Login (sampleModels 0) none ⟨"nobody@example.com", "secret"⟩) =
        [.errorJSON (.errorf "invalid username/password")] ∧
      Api.responses (Api.Login (sampleModels 0) none ⟨"admin@example.com", "secret"⟩) =
        [.errorJSON (.errorf "user is not active")] ∧
      Api.responses (Api.Login (sampleModels 0) none ⟨"nobody@example.com", "secret"⟩) ≠
        Api.responses (Api.Login (sampleModels 0) none ⟨"admin@example.com", "secret"⟩) := by
  decide

/-! ## ValidateToken (C11) -/

theorem ValidToken_false_of_error (hash : String → String) (tokens : List Api.Token)
    (users : List Api.User) (now : Time) (fs : Faults) (plainText : String) (e : Error)
    (h : (Data.ValidToken hash tokens users now fs plainText).2 = some e) :
    (Data.ValidToken hash tokens users now fs plainText).1 = false := by
  revert h
  unfold Data.ValidToken
  split
  · intro _
    rfl
  · split
    · intro _
      rfl
    · split
      · intro _
        rfl
      · intro h
        cases h

/-- C11, as amended: for a request whose body is read, `ValidateToken` asks
`ValidToken` once and its one response has status 200, `error = false` and a
boolean as data: `false` whenever `ValidToken` returns an error, and otherwise
the boolean `ValidToken` returned; whatever `ValidToken` is, the data is the
boolean it returned.  For a request whose body cannot be read the one response
is the error of `readJSON`. -/
theorem ValidateToken_responses (hash : String → String) (tokens : List Api.Token)
    (users : List Api.User) (now : Time) (fs : Faults) (token : String) (err : Error) :
    Api.ValidateToken (Data.ValidToken hash tokens users now fs) none token =
        [.ValidToken token,
         .writeJSON 200
           ⟨false, "", .bool (Data.ValidToken hash tokens users now fs token).1⟩] ∧
      (∀ e, (Data.ValidToken hash tokens users now fs token).2 = some e →
        Api.responses (Api.ValidateToken (Data.ValidToken hash tokens users now fs) none token) =
          [.writeJSON 200 ⟨false, "", .bool false⟩]) ∧
      ((Data.ValidToken hash tokens users now fs token).2 = none →
        Api.responses (Api.ValidateToken (Data.ValidToken hash tokens users now fs) none token) =
          [.writeJSON 200
            ⟨false, "", .bool (Data.ValidToken hash tokens users now fs token).1⟩]) ∧
      (∀ V : String → Bool × Option Error,
        Api.responses (Api.ValidateToken V none token) =
          [.writeJSON 200 ⟨false, "", .bool (V token).1⟩]) ∧
      Api.ValidateToken (Data.ValidToken hash tokens users now fs) (some err) token =
        [.errorJSON err] := by
  refine ⟨rfl, ?_, fun _ => rfl, fun _ => rfl, rfl⟩
  intro e he
  have hfalse := ValidToken_false_of_error hash tokens users now fs token e he
  have hresp : Api.responses
      (Api.ValidateToken (Data.ValidToken hash tokens users now fs) none token) =
      [.writeJSON 200
        ⟨false, "", .bool (Data.ValidToken hash tokens users now fs token).1⟩] := rfl
  rw [hresp, hfalse]

/-- Witness of C11: the token `abc` of the active user 1 at a time when the
lookup times out, and at the time 50 without a fault. -/
theorem ValidateToken_responses_witness :
    Api.responses (Api.ValidateToken
        (Data.ValidToken sampleHash sampleTokens [sampleUser 1] 50 [some "timeout"]) none
        "abc") =
      [.writeJSON 200 ⟨false, "", .bool false⟩] ∧
    Api.responses (Api.ValidateToken
        (Data.ValidToken sampleHash sampleTokens [sampleUser 1] 50 noFaults) none "abc") =
      [.writeJSON 200 ⟨false, "",
        .bool (Data.ValidToken sampleHash sampleTokens [sampleUser 1] 50 noFaults "abc").1⟩] ∧
    Data.ValidToken sampleHash sampleTokens [sampleUser 1] 50 noFaults "abc" = (true, none) ∧
    Data.ValidToken sampleHash sampleTokens [sampleUser 1] 100 noFaults "abc" = (false, none) ∧
    Data.ValidToken sampleHash sampleTokens [sampleUser 0] 50 noFaults "abc" = (false, none) ∧
    Data.ValidToken sampleHash sampleTokens [sampleUser 1] 50 noFaults "abd" = (false, none) :=
  ⟨(ValidateToken_responses sampleHash sampleTokens [sampleUser 1] 50 [some "timeout"] "abc"
      (.errorf "EOF")).2.1 (.driver "timeout") (by decide),
   (ValidateToken_responses sampleHash sampleTokens [sampleUser 1] 50 noFaults "abc"
      (.errorf "EOF")).2.2.1 (by decide),
   by decide, by decide, by decide, by decide⟩

/-- C11 fails as stated: a request whose body cannot be read is answered with
an error and with no boolean. -/
theorem ValidateToken_responses_counterexample :
    Api.responses (Api.ValidateToken (fun _ => (true, none)) (some (.errorf "EOF")) "") =
      [.errorJSON (.errorf "EOF")] := by
  decide

/-! ## Update of a food that has no row (C13) -/

theorem updateFoods_of_missing (s : Store) (knownAs : String) (countryID makeYear : Int)
    (slug description : String) (updated : Time) (id : Int)
    (hmiss : ∀ r ∈ s.foods, r.id ≠ id) :
    Data.updateFoods s knownAs countryID makeYear slug description updated id = s := by
  have hmap : s.foods.map (fun r =>
      if r.id = id then
        { r with known_as := knownAs, country_id := countryID, make_year := makeYear,
                 slug := slug, description := description, updated_at := updated }
      else r) = s.foods := by
    conv_rhs => rw [← List.map_id s.foods]
    apply List.map_congr_left
    intro r hr
    simp [hmiss r hr]
  unfold Data.updateFoods
  rw [hmap]

theorem Update_foods (env : Env) (fs : Faults) (now : Nat → Time) (s : Store) (f : Food) :
    (Data.Update env fs now s f).1.foods = s.foods ∨
      (Data.Update env fs now s f).1.foods =
        (Data.updateFoods s f.KnownAs f.CountryID f.MakeYear (env.Slugify f.KnownAs)
          f.Description (now 0) f.ID).foods := by
  unfold Data.Update
  cases nextFault fs with
  | some m => exact Or.inl rfl
  | none =>
    right
    by_cases hlen : f.TasteIDs.length > 0
    · rw [if_pos hlen]
      cases nextFault fs.tail with
      | some m => rfl
      | none => exact (addTastes_frame _ _ _ _ _ _).1
    · rw [if_neg hlen]

/-- C13, as amended: when no foods row has the id of the food, `Update` leaves
`foods` as it was and, unless the database faults, reports no error; without
taste ids the whole store is as it was, and with taste ids a successful
`Update` replaces the join rows that carry the id by one row per taste id. -/
theorem Update_missing_row (env : Env) (fs : Faults) (now : Nat → Time) (s : Store) (f : Food)
    (hmiss : ∀ r ∈ s.foods, r.id ≠ f.ID) :
    (Data.Update env fs now s f).1.foods = s.foods ∧
      (Data.Update env noFaults now s f).2 = none ∧
      (f.TasteIDs = [] → (Data.Update env fs now s f).1 = s) ∧
      (f.TasteIDs ≠ [] → (Data.Update env fs now s f).2 = none →
        (Data.Update env fs now s f).1.foods_tastes =
          s.foods_tastes.filter (fun r => r.food_id ≠ f.ID) ++
            tasteRows now f.ID 1 s.foods_tastes_id_seq f.TasteIDs) := by
  have hupd := updateFoods_of_missing s f.KnownAs f.CountryID f.MakeYear
    (env.Slugify f.KnownAs) f.Description (now 0) f.ID hmiss
  refine ⟨?_, Update_noFaults env now s f, ?_, ?_⟩
  · rcases Update_foods env fs now s f with h | h
    · exact h
    · rw [h, hupd]
  · intro hnil
    unfold Data.Update
    cases nextFault fs with
    | some m => rfl
    | none => simp [hnil, hupd]
  · intro hne hok
    exact (Update_ok_store env fs now s f hne hok).1

/-- Witness of C13: a food with the id 7, which the seeded store does not hold. -/
theorem Update_missing_row_witness :
    (Data.Update demoEnv noFaults sampleClock seedStore
        (sampleFood 7 "Ghost" 1 "" [5])).1.foods = seedStore.foods ∧
      (Data.Update demoEnv noFaults sampleClock seedStore
        (sampleFood 7 "Ghost" 1 "" [5])).2 = none ∧
      ((sampleFood 7 "Ghost" 1 "" [5]).TasteIDs = [] →
        (Data.Update demoEnv noFaults sampleClock seedStore
          (sampleFood 7 "Ghost" 1 "" [5])).1 = seedStore) ∧
      ((sampleFood 7 "Ghost" 1 "" [5]).TasteIDs ≠ [] →
        (Data.Update demoEnv noFaults sampleClock seedStore
          (sampleFood 7 "Ghost" 1 "" [5])).2 = none →
        (Data.Update demoEnv noFaults sampleClock seedStore
          (sampleFood 7 "Ghost" 1 "" [5])).1.foods_tastes =
          seedStore.foods_tastes.filter (fun r => r.food_id ≠ 7) ++
            tasteRows sampleClock 7 1 seedStore.foods_tastes_id_seq [5]) :=
  Update_missing_row demoEnv noFaults sampleClock seedStore (sampleFood 7 "Ghost" 1 "" [5])
    (by decide)

/-- C13 fails as stated: the seeded store holds no food with the id 7; `Update`
of such a food with the taste 5 reports no error and adds a join row. -/
theorem Update_missing_row_counterexample :
    (∀ r ∈ seedStore.foods, r.id ≠ 7) ∧
      (Data.Update demoEnv noFaults sampleClock seedStore
        (sampleFood 7 "Ghost" 1 "" [5])).2 = none ∧
      (Data.Update demoEnv noFaults sampleClock seedStore
        (sampleFood 7 "Ghost" 1 "" [5])).1.foods_tastes =
        [⟨1, 1, 3, 20220101, 20220101⟩, ⟨2, 7, 5, 20221105, 20221106⟩] := by
  decide

/-! ## Login with a malformed body (C14) -/

/-- C14 does not hold of the code: after a failed `readJSON`, `Login` logs the
error and writes the response with status 400, and then, for want of a
`return`, looks up the user with the credentials as they are and writes a
second response; with credentials that pass it generates and stores a token. -/
theorem Login_malformed_body_goes_on :
    Api.Login (sampleModels 1) (some (.errorf "unexpected EOF")) ⟨"", ""⟩ =
        [.errorLog (.errorf "unexpected EOF"),
         .writeJSON 400 ⟨true, "invalid json supplied, or json missing entirely", .absent⟩,
         .GetByEmail "",
         .errorJSON (.errorf "invalid username/password")] ∧
      Api.Login (sampleModels 1) (some (.errorf "body must have only a single JSON value"))
          ⟨"admin@example.com", "secret"⟩ =
        [.errorLog (.errorf "body must have only a single JSON value"),
         .writeJSON 400 ⟨true, "invalid json supplied, or json missing entirely", .absent⟩,
         .GetByEmail "admin@example.com",
         .PasswordMatches (sampleUser 1) "secret",
         .GenerateToken 1 Api.tokenTTL,
         .TokenInsert ⟨1, "", "plaintexttoken", "hash", Api.tokenTTL⟩ (sampleUser 1),
         .writeJSON 200 ⟨false, "logged in",
           .tokenUser ⟨1, "", "plaintexttoken", "hash", Api.tokenTTL⟩ (sampleUser 1)⟩] := by
  decide

/-! ## DeleteByID (C15) -/

/-- C15: without a fault `DeleteByID i` returns no error, whether or not a row
has the id `i`, and leaves in `foods` exactly the rows whose id is not `i`, as
they were and in their order; with or without a fault it leaves `foods_tastes`,
`tastes`, `countries` and the identity sequences as they were. -/
theorem DeleteByID_removes_row (fs : Faults) (s : Store) (i : Int) :
    (Data.DeleteByID noFaults s i).2 = none ∧
      (Data.DeleteByID noFaults s i).1.foods = s.foods.filter (fun r => r.id ≠ i) ∧
      (∀ r, r ∈ (Data.DeleteByID noFaults s i).1.foods ↔ r ∈ s.foods ∧ r.id ≠ i) ∧
      (Data.DeleteByID fs s i).1.foods_tastes = s.foods_tastes ∧
      (Data.DeleteByID fs s i).1.tastes = s.tastes ∧
      (Data.DeleteByID fs s i).1.countries = s.countries ∧
      (Data.DeleteByID fs s i).1.foods_id_seq = s.foods_id_seq ∧
      (Data.DeleteByID fs s i).1.foods_tastes_id_seq = s.foods_tastes_id_seq := by
  refine ⟨rfl, rfl, ?_, ?_⟩
  · intro r
    simp [Data.DeleteByID, noFaults, nextFault]
  · unfold Data.DeleteByID
    cases nextFault fs with
    | some m => exact ⟨rfl, rfl, rfl, rfl, rfl⟩
    | none => exact ⟨rfl, rfl, rfl, rfl, rfl⟩

/-! ## The join rows Insert deletes (C16) -/

/-- C16 does not hold of the code: `Insert` deletes the join rows of the id in
the food value, not of the generated identity.  A food value with the id 1,
inserted into the seeded store with the taste 2, gets the identity 2 and the
join row of food 1 is gone; and a join row that carries the identity 2 before
a food value with the id 0 is inserted under that identity is still there. -/
theorem Insert_deletes_rows_of_value_id :
    ((Data.Insert demoEnv noFaults sampleClock seedStore (sampleFood 1 "Pho" 1 "" [2])).id = 2 ∧
      (Data.Insert demoEnv noFaults sampleClock seedStore
        (sampleFood 1 "Pho" 1 "" [2])).store.foods_tastes =
        [⟨2, 2, 2, 20221106, 20221107⟩]) ∧
    ((Data.Update demoEnv noFaults sampleClock seedStore
        (sampleFood 2 "Ghost" 1 "" [5])).1.foods_tastes =
        [⟨1, 1, 3, 20220101, 20220101⟩, ⟨2, 2, 5, 20221105, 20221106⟩] ∧
      (Data.Insert demoEnv noFaults sampleClock
        (Data.Update demoEnv noFaults sampleClock seedStore (sampleFood 2 "Ghost" 1 "" [5])).1
        (sampleFood 0 "Pho" 1 "" [2])).id = 2 ∧
      (Data.Insert demoEnv noFaults sampleClock
        (Data.Update demoEnv noFaults sampleClock seedStore (sampleFood 2 "Ghost" 1 "" [5])).1
        (sampleFood 0 "Pho" 1 "" [2])).store.foods_tastes =
        [⟨1, 1, 3, 20220101, 20220101⟩, ⟨2, 2, 5, 20221105, 20221106⟩,
         ⟨3, 2, 2, 20221106, 20221107⟩]) := by
  decide

/-! ## EditFood: the sample file (C12) -/

theorem saveFood_store (env : Env) (fs : Faults) (now : Nat → Time) (s : Store) (food : Food) :
    (Api.saveFood env fs now s food).2 =
      if food.ID = 0 then (Data.Insert env fs now s food).store
      else (Data.Update env fs now s food).1 := by
  unfold Api.saveFood
  by_cases h : food.ID = 0
  · rw [if_pos h, if_pos h]
    cases (Data.Insert env fs now s food).err <;> rfl
  · rw [if_neg h, if_neg h]
    cases (Data.Update env fs now s food).2 <;> rfl

theorem saveFood_writes_no_file (env : Env) (fs : Faults) (now : Nat → Time) (s : Store)
    (food : Food) (name : String) (data : List Nat) :
    Api.Effect.WriteFile name data ∉ (Api.saveFood env fs now s food).1 := by
  unfold Api.saveFood
  by_cases h : food.ID = 0
  · rw [if_pos h]
    cases (Data.Insert env fs now s food).err <;> simp
  · rw [if_neg h]
    cases (Data.Update env fs now s food).2 <;> simp

theorem samplePath_eq (slug : String) :
    Api.samplePath slug = "./static//samples/" ++ slug ++ ".jpg" := by
  have h : Api.staticPath ++ "/samples/" = "./static//samples/" := by decide
  unfold Api.samplePath
  rw [h]

theorem samplePath_injective (a b : String) (h : Api.samplePath a = Api.samplePath b) :
    a = b := by
  rw [samplePath_eq, samplePath_eq] at h
  have hd := congrArg String.data h
  simp only [String.data_append] at hd
  exact String.ext (List.append_cancel_left (List.append_cancel_right hd))

/-- C12: for a request with a non-empty sample whose body is read, when the
sample is not base64 or the file cannot be written `EditFood` answers with that
error alone, calls neither `Insert` nor `Update` and leaves the store as it
was; every file it writes has the name `./static//samples/` followed by
`Slugify(known_as)` and `.jpg`, a name that differs for different slugs; and
when it goes on, the store is the one `Insert` (id 0) or `Update` leaves for
the food value of the request, where the row written, or the row of the id if
there is one, has that same slug. -/
theorem EditFood_sample_failure (env : Env) (os : Api.Files) (fs : Faults) (now : Nat → Time)
    (s : Store) (p : Api.foodPayload) (hsample : p.SampleBase64.length > 0) :
    (∀ e, os.DecodeString p.SampleBase64 = .error e →
      Api.EditFood env os fs now s none p =
          ([.DecodeString p.SampleBase64, .errorJSON e], s) ∧
        Api.responses (Api.EditFood env os fs now s none p).1 = [.errorJSON e] ∧
        callsFood (Api.EditFood env os fs now s none p).1 = false) ∧
    (∀ bytes e, os.DecodeString p.SampleBase64 = .ok bytes →
      os.WriteFile ("./static//samples/" ++ env.Slugify p.KnownAs ++ ".jpg") bytes = some e →
      Api.EditFood env os fs now s none p =
          ([.DecodeString p.SampleBase64,
            .WriteFile ("./static//samples/" ++ env.Slugify p.KnownAs ++ ".jpg") bytes,
            .errorJSON e], s) ∧
        Api.responses (Api.EditFood env os fs now s none p).1 = [.errorJSON e] ∧
        callsFood (Api.EditFood env os fs now s none p).1 = false) ∧
    (∀ name data, Api.Effect.WriteFile name data ∈ (Api.EditFood env os fs now s none p).1 →
      name = "./static//samples/" ++ env.Slugify p.KnownAs ++ ".jpg" ∧
        os.DecodeString p.SampleBase64 = .ok data) ∧
    (∀ bytes, os.DecodeString p.SampleBase64 = .ok bytes →
      Api.Effect.WriteFile ("./static//samples/" ++ env.Slugify p.KnownAs ++ ".jpg") bytes ∈
        (Api.EditFood env os fs now s none p).1) ∧
    (∀ other : String, other ≠ env.Slugify p.KnownAs →
      "./static//samples/" ++ other ++ ".jpg" ≠
        "./static//samples/" ++ env.Slugify p.KnownAs ++ ".jpg") ∧
    (∀ bytes, os.DecodeString p.SampleBase64 = .ok bytes →
      os.WriteFile ("./static//samples/" ++ env.Slugify p.KnownAs ++ ".jpg") bytes = none →
      (p.ID = 0 →
        (Api.EditFood env os fs now s none p).2 =
            (Data.Insert env fs now s (Api.foodOfPayload env p)).store ∧
          (nextFault fs = none →
            ∃ r ∈ (Api.EditFood env os fs now s none p).2.foods,
              r.id = s.foods_id_seq ∧ r.slug = env.Slugify p.KnownAs)) ∧
      (p.ID ≠ 0 →
        (Api.EditFood env os fs now s none p).2 =
            (Data.Update env fs now s (Api.foodOfPayload env p)).1 ∧
          ((Data.Update env fs now s (Api.foodOfPayload env p)).2 = none →
            (∀ r ∈ (Api.EditFood env os fs now s none p).2.foods,
              r.id = p.ID → r.slug = env.Slugify p.KnownAs) ∧
            ((∃ r ∈ s.foods, r.id = p.ID) →
              ∃ r ∈ (Api.EditFood env os fs now s none p).2.foods,
                r.id = p.ID ∧ r.slug = env.Slugify p.KnownAs)))) := by
  have hslug : (Api.foodOfPayload env p).Slug = env.Slugify p.KnownAs := rfl
  have hother : ∀ other : String, other ≠ env.Slugify p.KnownAs →
      "./static//samples/" ++ other ++ ".jpg" ≠
        "./static//samples/" ++ env.Slugify p.KnownAs ++ ".jpg" := by
    intro other hne heq
    rw [← samplePath_eq, ← samplePath_eq] at heq
    exact hne (samplePath_injective _ _ heq)
  rw [← samplePath_eq (env.Slugify p.KnownAs)]
  refine ⟨?_, ?_, ?_, ?_, ?_, ?_⟩
  · intro e hdec
    have heq : Api.EditFood env os fs now s none p =
        ([.DecodeString p.SampleBase64, .errorJSON e], s) := by
      unfold Api.EditFood
      simp only [hsample, if_true, hdec]
    rw [heq]
    exact ⟨rfl, rfl, rfl⟩
  · intro bytes e hdec hwrite
    have heq : Api.EditFood env os fs now s none p =
        ([.DecodeString p.SampleBase64,
          .WriteFile (Api.samplePath (env.Slugify p.KnownAs)) bytes, .errorJSON e], s) := by
      unfold Api.EditFood
      simp only [hsample, if_true, hdec, hslug, hwrite]
    rw [heq]
    exact ⟨rfl, rfl, rfl⟩
  · intro name data hmem
    unfold Api.EditFood at hmem
    simp only [hsample, if_true, hslug] at hmem
    cases hdec : os.DecodeString p.SampleBase64 with
    | error e => simp [hdec] at hmem
    | ok bytes =>
      simp only [hdec] at hmem
      cases hwrite : os.WriteFile (Api.samplePath (env.Slugify p.KnownAs)) bytes with
      | some e =>
        simp only [hwrite] at hmem
        simp at hmem
        exact ⟨hmem.1, by rw [hmem.2]⟩
      | none =>
        simp only [hwrite, List.mem_cons] at hmem
        rcases hmem with h | h | h
        · cases h
        · cases h
          exact ⟨rfl, rfl⟩
        · exact absurd h (saveFood_writes_no_file env fs now s _ name data)
  · intro bytes hdec
    unfold Api.EditFood
    simp only [hsample, if_true, hdec, hslug]
    cases os.WriteFile (Api.samplePath (env.Slugify p.KnownAs)) bytes <;> simp
  · intro other hne
    rw [samplePath_eq]
    exact hother other hne
  · intro bytes hdec hwrite
    have heq : (Api.EditFood env os fs now s none p).2 =
        (Api.saveFood env fs now s (Api.foodOfPayload env p)).2 := by
      unfold Api.EditFood
      simp only [hsample, if_true, hdec, hslug, hwrite]
    have hid : (Api.foodOfPayload env p).ID = p.ID := rfl
    constructor
    · intro h0
      have hstore : (Api.EditFood env os fs now s none p).2 =
          (Data.Insert env fs now s (Api.foodOfPayload env p)).store := by
        rw [heq, saveFood_store, hid, if_pos h0]
      refine ⟨hstore, ?_⟩
      intro hf
      obtain ⟨_, hfoods, _, _, _⟩ := Insert_frame env fs now s (Api.foodOfPayload env p) hf
      rw [hstore, hfoods]
      exact ⟨insertedRow env now s.foods_id_seq (Api.foodOfPayload env p), by simp, rfl, rfl⟩
    · intro h0
      have hstore : (Api.EditFood env os fs now s none p).2 =
          (Data.Update env fs now s (Api.foodOfPayload env p)).1 := by
        rw [heq, saveFood_store, hid, if_neg h0]
      refine ⟨hstore, ?_⟩
      intro hok
      obtain ⟨hfoods, _, _⟩ := Update_ok_frame env fs now s (Api.foodOfPayload env p) hok
      rw [hstore, hfoods]
      refine ⟨mem_updateFoods_slug s _ _ _ _ _ _ _, ?_⟩
      rintro ⟨r, hr, hrid⟩
      obtain ⟨r0, _, hid0, hfind⟩ := find?_updateFoods s p.KnownAs p.CountryID p.MakeYear
        (env.Slugify p.KnownAs) p.Description (now 0) p.ID r hr hrid
      exact ⟨_, List.mem_of_find?_eq_some hfind, hid0, rfl⟩

/-- Witness of C12: Pho with a sample that is not base64, and Pho with a sample
that decodes while the file `./static//samples/pho.jpg` cannot be written. -/
theorem EditFood_sample_failure_witness :
    (Api.EditFood demoEnv (sampleFiles true) noFaults sampleClock seedStore none
          (samplePayload 0 "Pho" "%%%" [3]) =
        ([.DecodeString "%%%", .errorJSON (.errorf "illegal base64 data at input byte 0")],
          seedStore) ∧
      Api.responses (Api.EditFood demoEnv (sampleFiles true) noFaults sampleClock seedStore none
          (samplePayload 0 "Pho" "%%%" [3])).1 =
        [.errorJSON (.errorf "illegal base64 data at input byte 0")] ∧
      callsFood (Api.EditFood demoEnv (sampleFiles true) noFaults sampleClock seedStore none
          (samplePayload 0 "Pho" "%%%" [3])).1 = false) ∧
    (Api.EditFood demoEnv (sampleFiles false) noFaults sampleClock seedStore none
          (samplePayload 0 "Pho" "aGk=" [3]) =
        ([.DecodeString "aGk=",
          .WriteFile ("./static//samples/" ++ demoEnv.Slugify "Pho" ++ ".jpg") [104, 105],
          .errorJSON (.errorf "open: permission denied")], seedStore) ∧
      Api.responses (Api.EditFood demoEnv (sampleFiles false) noFaults sampleClock seedStore none
          (samplePayload 0 "Pho" "aGk=" [3])).1 =
        [.errorJSON (.errorf "open: permission denied")] ∧
      callsFood (Api.EditFood demoEnv (sampleFiles false) noFaults sampleClock seedStore none
          (samplePayload 0 "Pho" "aGk=" [3])).1 = false) ∧
    Api.EditFood demoEnv (sampleFiles false) noFaults sampleClock seedStore none
        (samplePayload 0 "Pho" "aGk=" [3]) =
      ([.DecodeString "aGk=", .WriteFile "./static//samples/pho.jpg" [104, 105],
        .errorJSON (.errorf "open: permission denied")], seedStore) ∧
    (Api.EditFood demoEnv (sampleFiles true) noFaults sampleClock seedStore none
        (samplePayload 0 "Pho" "aGk=" [3])).1 =
      [.DecodeString "aGk=", .WriteFile "./static//samples/pho.jpg" [104, 105],
        .FoodInsert (Api.foodOfPayload demoEnv (samplePayload 0 "Pho" "aGk=" [3])),
        .writeJSON 202 ⟨false, "Changes saved", .absent⟩] ∧
    (Api.EditFood demoEnv (sampleFiles true) noFaults sampleClock seedStore none
        (samplePayload 0 "Pho" "aGk=" [3])).2.foods.map (fun r => (r.id, r.slug)) =
      [(1, "hamburger"), (2, "pho")] :=
  ⟨(EditFood_sample_failure demoEnv (sampleFiles true) noFaults sampleClock seedStore
      (samplePayload 0 "Pho" "%%%" [3]) (by decide)).1 _ (by decide),
   (EditFood_sample_failure demoEnv (sampleFiles false) noFaults sampleClock seedStore
      (samplePayload 0 "Pho" "aGk=" [3]) (by decide)).2.1 _ _ (by decide) (by decide),
   by decide, by decide, by decide⟩

end FoodApi
